import Mathlib

/-! The `/getWeather` relay of api-weather-go.

A shallow embedding of `src/main.go`.  Go strings are modelled as Lean
`String`s (sequences of characters; the delimiters the program inspects are
all ASCII).  The standard-library calls the program makes on the outside
world (`http.Get`, `io.ReadAll`, `json.Unmarshal`, `json.Encoder.Encode`,
the `%f` verb) are fields of a `World`; the pure string functions
(`strings.Split`, `strings.TrimSpace`, `net.SplitHostPort`) are embedded
concretely.  For the weather body the codec of `encoding/json` is embedded
too (`jsonUnmarshalWeather`, `jsonMarshalWeather`), over the `float64`
functions of `strconv`; `goWorld` is the world that uses it.
-/

namespace WeatherRelay

/-! ## Standard-library string functions -/

/-- Go `unicode.IsSpace`: the Latin-1 spaces and the code points with the
White_Space property. -/
def isSpace (c : Char) : Bool :=
  c = '\t' || c = '\n' || c.val = 0x0B || c.val = 0x0C || c = '\r' || c = ' ' ||
  c.val = 0x85 || c.val = 0xA0 || c.val = 0x1680 ||
  (0x2000 ≤ c.val && c.val ≤ 0x200A) ||
  c.val = 0x2028 || c.val = 0x2029 || c.val = 0x202F || c.val = 0x205F || c.val = 0x3000

/-- Go `strings.TrimSpace` on a character list: leading and trailing white
space removed. -/
def trimSpaceChars (s : List Char) : List Char :=
  ((s.dropWhile isSpace).reverse.dropWhile isSpace).reverse

/-- Go `strings.TrimSpace`. -/
def trimSpace (s : String) : String :=
  String.mk (trimSpaceChars s.data)

/-- Go `strings.Split(s, sep)` for a one-character separator, on character
lists: the pieces between the occurrences of `sep`, with `acc` the piece under
construction (reversed). -/
def splitAux (sep : Char) : List Char → List Char → List (List Char)
  | [], acc => [acc.reverse]
  | c :: cs, acc =>
    if c = sep then acc.reverse :: splitAux sep cs [] else splitAux sep cs (c :: acc)

/-- Go `strings.Split(s, sep)` for a one-character separator. -/
def split (s : String) (sep : Char) : List String :=
  (splitAux sep s.data []).map String.mk

/-- Position of the first `c` in `s` (Go `bytealg.IndexByteString`, `none`
for the result `-1`). -/
def indexByte (s : List Char) (c : Char) : Option Nat :=
  if s.indexOf c < s.length then some (s.indexOf c) else none

/-- Position of the last `c` in `s` (Go `bytealg.LastIndexByteString`). -/
def lastIndexByte (s : List Char) (c : Char) : Option Nat :=
  match indexByte s.reverse c with
  | some j => some (s.length - 1 - j)
  | none => none

/-- The reasons of a Go `net.AddrError` returned by `net.SplitHostPort`. -/
inductive AddrError where
  | missingPort
  | tooManyColons
  | missingCloseBracket
  | unexpectedOpenBracket
  | unexpectedCloseBracket
  deriving DecidableEq, Repr

/-- The closing checks of `net.SplitHostPort`: no `[` from position `j` on, no
`]` from position `k` on; the port is what follows the last colon at `i`. -/
def splitHostPortTail (hostport host : List Char) (i j k : Nat) :
    Except AddrError (List Char × List Char) :=
  if (indexByte (hostport.drop j) '[').isSome then .error .unexpectedOpenBracket
  else if (indexByte (hostport.drop k) ']').isSome then .error .unexpectedCloseBracket
  else .ok (host, hostport.drop (i + 1))

/-- Go `net.SplitHostPort` on a character list. -/
def splitHostPortChars (hostport : List Char) : Except AddrError (List Char × List Char) :=
  match lastIndexByte hostport ':' with
  | none => .error .missingPort
  | some i =>
    if hostport.head? = some '[' then
      match indexByte hostport ']' with
      | none => .error .missingCloseBracket
      | some e =>
        if e + 1 = hostport.length then .error .missingPort
        else if e + 1 = i then
          splitHostPortTail hostport ((hostport.take e).drop 1) i 1 (e + 1)
        else if hostport.get? (e + 1) = some ':' then .error .tooManyColons
        else .error .missingPort
    else
      if (indexByte (hostport.take i) ':').isSome then .error .tooManyColons
      else splitHostPortTail hostport (hostport.take i) i 0 0

/-- Go `net.SplitHostPort`: host and port of `host:port` or `[host]:port`. -/
def SplitHostPort (hostport : String) : Except AddrError (String × String) :=
  match splitHostPortChars hostport.data with
  | .ok (h, p) => .ok (String.mk h, String.mk p)
  | .error e => .error e

/-! ## The request and the client-IP resolver -/

/-- Go `url.Values` and `http.Header`: the values recorded under each key. -/
abbrev Values := String → List String

/-- Go `Values.Get` and `Header.Get`: the first value of the key, `""` when
there is none. -/
def Values.Get (v : Values) (key : String) : String :=
  match v key with
  | [] => ""
  | x :: _ => x

/-- The parts of `*http.Request` the program reads. -/
structure Request where
  /-- The parsed query, `r.URL.Query()`. -/
  Query : Values
  /-- The request header, `r.Header`. -/
  Header : Values
  /-- The peer address, `r.RemoteAddr`. -/
  RemoteAddr : String

/-- Function `getClientIP` (main.go 87-99).  `none` is the run-time panic of the index
expression `ips[0]` on an empty slice. -/
def getClientIP (r : Request) : Option String :=
  let xForwardedFor := r.Header.Get "X-Forwarded-For"
  if xForwardedFor ≠ "" then
    let ips := split xForwardedFor ','
    match ips[0]? with
    | some ip0 => some (trimSpace ip0)
    | none => none
  else
    match SplitHostPort r.RemoteAddr with
    | .error _ => some r.RemoteAddr
    | .ok (ip, _) => some ip

/-! ## Data model -/

/-- Type `IPLocation` (main.go 14-20); `F` is the type of `float64` values. -/
structure IPLocation (F : Type) where
  Status : String
  Lat : F
  Lon : F
  City : String
  Country : String

/-- Type `WeatherResponse` (main.go 22-26); `J` is the type of the `interface{}`
values `encoding/json` decodes into. -/
structure WeatherResponse (J : Type) where
  Metadata : J
  Units : J
  DataCurrent : J

/-- Type `Config` (main.go 28-31). -/
structure Config where
  MeteoBlueAPIKey : String
  Port : String
  deriving DecidableEq, Repr

/-- What the program does to the outside world, in order. -/
inductive Effect where
  /-- A `fmt.Printf` on standard output. -/
  | stdout (s : String)
  /-- A line written by the `log` package on standard error (its time stamp
  left out). -/
  | stderr (s : String)
  /-- An `http.Get` of the URL. -/
  | httpGet (url : String)
  /-- An `http.HandleFunc` registering `handleGetWeather config` on a pattern. -/
  | handleFunc (pattern : String) (config : Config)
  /-- An `http.ListenAndServe` on the address. -/
  | listenAndServe (addr : String)
  /-- An `os.Exit` with the code. -/
  | exit (code : Nat)
  deriving DecidableEq, Repr

/-- An `*http.Response` as the program uses it: the outcome of
`io.ReadAll(resp.Body)`, the body text or the read error. -/
structure HttpResponse where
  Body : Except String String

/-- The standard-library calls whose results depend on the outside world or on
`encoding/json` and `fmt` internals.  Errors are their `Error()` texts. -/
structure World (F J : Type) where
  /-- Go `http.Get`. -/
  httpGet : String → Except String HttpResponse
  /-- Go `json.Unmarshal(body, &location)` into a zero `IPLocation`. -/
  unmarshalLocation : String → Except String (IPLocation F)
  /-- Go `json.Unmarshal(body, &weatherData)` into a zero `WeatherResponse`. -/
  unmarshalWeather : String → Except String (WeatherResponse J)
  /-- Go `json.Marshal` of a `*WeatherResponse`. -/
  marshalWeather : WeatherResponse J → Except String String
  /-- Go `fmt.Sprintf("%f", x)`. -/
  formatFloat : F → String

/-- The state of an `http.ResponseWriter`: the header map, the status line
once written, and the body written so far. -/
structure ResponseWriter where
  header : List (String × String)
  status : Option Nat
  body : String
  deriving DecidableEq, Repr

/-- The writer a handler receives. -/
def ResponseWriter.fresh : ResponseWriter := ⟨[], none, ""⟩

/-- Go `Header.Del`. -/
def ResponseWriter.Del (w : ResponseWriter) (key : String) : ResponseWriter :=
  { w with header := w.header.filter (fun kv => kv.1 ≠ key) }

/-- Go `Header.Set`. -/
def ResponseWriter.Set (w : ResponseWriter) (key value : String) : ResponseWriter :=
  { w with header := w.header.filter (fun kv => kv.1 ≠ key) ++ [(key, value)] }

/-- Go `Header.Get` on the response header. -/
def ResponseWriter.Get (w : ResponseWriter) (key : String) : String :=
  match w.header.find? (fun kv => kv.1 = key) with
  | some kv => kv.2
  | none => ""

/-- Go `ResponseWriter.WriteHeader`: the first call fixes the status. -/
def ResponseWriter.WriteHeader (w : ResponseWriter) (code : Nat) : ResponseWriter :=
  match w.status with
  | none => { w with status := some code }
  | some _ => w

/-- Go `ResponseWriter.Write`: an implicit `WriteHeader(200)` when no status
was written, then the data. -/
def ResponseWriter.Write (w : ResponseWriter) (data : String) : ResponseWriter :=
  let w1 := w.WriteHeader 200
  { w1 with body := w1.body ++ data }

/-- Go `http.Error`. -/
def httpError (w : ResponseWriter) (error : String) (code : Nat) : ResponseWriter :=
  let w1 := w.Del "Content-Length"
  let w2 := w1.Set "Content-Type" "text/plain; charset=utf-8"
  let w3 := w2.Set "X-Content-Type-Options" "nosniff"
  let w4 := w3.WriteHeader code
  w4.Write (error ++ "\n")

/-- Go `json.NewEncoder(w).Encode(v)`: the marshalled value and a newline are
written; on a marshalling error nothing is. -/
def encode {F J : Type} (W : World F J) (w : ResponseWriter) (v : WeatherResponse J) :
    ResponseWriter :=
  match W.marshalWeather v with
  | .error _ => w
  | .ok b => w.Write (b ++ "\n")

/-! ## The two upstream clients -/

/-- Function `getLocationFromIP` (main.go 101-125), with the effects it performs. -/
def getLocationFromIP {F J : Type} (W : World F J) (ip : String) :
    List Effect × Except String (IPLocation F) :=
  let url := "http://ip-api.com/json/" ++ ip
  match W.httpGet url with
  | .error err => ([.httpGet url], .error ("failed to query IP location API: " ++ err))
  | .ok resp =>
    match resp.Body with
    | .error err =>
      ([.httpGet url], .error ("failed to read IP location API response: " ++ err))
    | .ok body =>
      match W.unmarshalLocation body with
      | .error err =>
        ([.httpGet url], .error ("failed to parse IP location API response: " ++ err))
      | .ok location =>
        if location.Status ≠ "success" then
          ([.httpGet url],
            .error ("IP location API returned non-success status: " ++ location.Status))
        else
          ([.httpGet url], .ok location)

/-- The URL `getWeatherData` builds (main.go 128-129). -/
def weatherURL {F J : Type} (W : World F J) (lat lon : F) (apiKey : String) : String :=
  "https://my.meteoblue.com/packages/current?apikey=" ++ apiKey ++ "&lat=" ++
    W.formatFloat lat ++ "&lon=" ++ W.formatFloat lon ++ "&format=json"

/-- Function `getWeatherData` (main.go 127-148), with the effects it performs. -/
def getWeatherData {F J : Type} (W : World F J) (lat lon : F) (apiKey : String) :
    List Effect × Except String (WeatherResponse J) :=
  let url := weatherURL W lat lon apiKey
  match W.httpGet url with
  | .error err => ([.httpGet url], .error ("failed to query weather API: " ++ err))
  | .ok resp =>
    match resp.Body with
    | .error err => ([.httpGet url], .error ("failed to read weather API response: " ++ err))
    | .ok body =>
      match W.unmarshalWeather body with
      | .error err => ([.httpGet url], .error ("failed to parse weather API response: " ++ err))
      | .ok weatherData => ([.httpGet url], .ok weatherData)

/-! ## The request handler -/

/-- The IP selection at the head of the handler (main.go 57-66): the chosen IP
and the line printed; `none` when `getClientIP` panics. -/
def resolveIP (r : Request) : Option (String × List Effect) :=
  let ipParam := r.Query.Get "ip"
  if ipParam ≠ "" then
    some (ipParam, [.stdout ("Using IP from request parameter: " ++ ipParam ++ "\n")])
  else
    match getClientIP r with
    | none => none
    | some ip => some (ip, [.stdout ("Detected client IP: " ++ ip ++ "\n")])

/-- The handler from the resolved IP on (main.go 68-83), writing to `w`. -/
def respond {F J : Type} (W : World F J) (config : Config) (w : ResponseWriter)
    (ip : String) : List Effect × ResponseWriter :=
  match getLocationFromIP W ip with
  | (e1, .error err) => (e1, httpError w ("Error getting location: " ++ err) 500)
  | (e1, .ok location) =>
    match getWeatherData W location.Lat location.Lon config.MeteoBlueAPIKey with
    | (e2, .error err) => (e1 ++ e2, httpError w ("Error getting weather data: " ++ err) 500)
    | (e2, .ok weatherData) =>
      let w1 := w.Set "Content-Type" "application/json"
      let w2 := w1.WriteHeader 200
      (e1 ++ e2, encode W w2 weatherData)

/-- Handler `handleGetWeather config` (main.go 55-85) run on a request with a fresh
response writer: the effects in order and the final writer; `none` when the
handler panics. -/
def handleGetWeather {F J : Type} (W : World F J) (config : Config) (r : Request) :
    Option (List Effect × ResponseWriter) :=
  match resolveIP r with
  | none => none
  | some (ip, out) =>
    let res := respond W config ResponseWriter.fresh ip
    some (out ++ res.1, res.2)

/-! ## The process entry point -/

/-- The process environment, Go `os.LookupEnv`: the value of a variable, or
`none` when it is not set. -/
abbrev Env := String → Option String

/-- Go `os.Getenv`: the value, `""` when the variable is not set. -/
def Getenv (env : Env) (key : String) : String :=
  match env key with
  | some v => v
  | none => ""

/-- Go `log.Fatal`: the message on standard error, then `os.Exit(1)`. -/
def logFatal (msg : String) : List Effect :=
  [.stderr msg, .exit 1]

/-- Function `main` (main.go 33-53): its effects in order.  `serve addr` is what
`http.ListenAndServe` returns on that address, `none` while it serves. -/
def main (env : Env) (serve : String → Option String) : List Effect :=
  let apiKey := Getenv env "METEOBLUE_API_KEY"
  if apiKey = "" then
    logFatal "Environment variable METEOBLUE_API_KEY is not set"
  else
    let port := if Getenv env "PORT" = "" then "8080" else Getenv env "PORT"
    let config : Config := { MeteoBlueAPIKey := apiKey, Port := port }
    [.handleFunc "/getWeather" config,
     .stdout ("Server started on port " ++ config.Port ++ "...\n"),
     .listenAndServe (":" ++ config.Port)] ++
    (match serve (":" ++ config.Port) with
     | none => []
     | some err => logFatal err)

/-! ## The JSON codec of `encoding/json` -/

/-- A JSON value with numbers of type `N`: the tree `encoding/json` scans
(`N` the number texts, members in document order), and the `interface{}` value
it decodes (`N` the `float64` values; a Go map is its members by increasing
key, each key once). -/
inductive JSONValue (N : Type) where
  | null
  | bool (b : Bool)
  | number (n : N)
  | string (s : String)
  | array (elems : List (JSONValue N))
  | object (members : List (String × JSONValue N))
  deriving Repr

/-- The white space the scanner skips (`isSpace` of scanner.go). -/
def isJSONSpace (c : Char) : Bool :=
  c = ' ' || c = '\t' || c = '\r' || c = '\n'

/-- The input from its first character that is not white space on. -/
def skipSpace (s : List Char) : List Char :=
  s.dropWhile isJSONSpace

/-- A decimal digit. -/
def isDigit (c : Char) : Bool :=
  48 ≤ c.toNat && c.toNat ≤ 57

/-- The value of a hexadecimal digit, of either case. -/
def hexValue (c : Char) : Option Nat :=
  if 48 ≤ c.toNat ∧ c.toNat ≤ 57 then some (c.toNat - 48)
  else if 97 ≤ c.toNat ∧ c.toNat ≤ 102 then some (c.toNat - 87)
  else if 65 ≤ c.toNat ∧ c.toNat ≤ 70 then some (c.toNat - 55)
  else none

/-- Go `getu4`: the number written by the escape `\uXXXX` at the head of the
input, `none` for the result `-1`. -/
def getu4 (s : List Char) : Option Nat :=
  match s with
  | b :: u :: h1 :: h2 :: h3 :: h4 :: _ =>
    if b = '\\' ∧ u = 'u' then
      match hexValue h1, hexValue h2, hexValue h3, hexValue h4 with
      | some a, some b, some c, some d => some (((a * 16 + b) * 16 + c) * 16 + d)
      | _, _, _, _ => none
    else none
  | _ => none

/-- The character a one-letter escape stands for. -/
def unescapeLetter (e : Char) : Option Char :=
  if e = '"' then some '"'
  else if e = '\\' then some '\\'
  else if e = '/' then some '/'
  else if e = 'b' then some (Char.ofNat 8)
  else if e = 'f' then some (Char.ofNat 12)
  else if e = 'n' then some '\n'
  else if e = 'r' then some '\r'
  else if e = 't' then some '\t'
  else none

/-- A string literal from behind its opening quote on (the scanner's
`stateInString` states and Go `unquote`): the text it denotes, collected in
`acc` in reverse, and the input behind the closing quote; `none` on a syntax
error.  A `\u` escape of a high surrogate half followed by one of a low half
denotes the character of the pair; any other escape of a surrogate half
denotes U+FFFD.  Every step reads a character at least, so the steps given,
one more than the characters, are never used up. -/
def unquote : Nat → List Char → List Char → Option (String × List Char)
  | 0, _, _ => none
  | fuel + 1, s, acc =>
    match s with
    | [] => none
    | c :: r =>
      if c = '"' then some (String.mk acc.reverse, r)
      else if c = '\\' then
        match r with
        | [] => none
        | e :: r2 =>
          if e = 'u' then
            match getu4 (c :: r) with
            | none => none
            | some rr =>
              if 0xD800 ≤ rr ∧ rr < 0xE000 then
                match getu4 (r.drop 5) with
                | none => unquote fuel (r.drop 5) (Char.ofNat 0xFFFD :: acc)
                | some rr1 =>
                  if rr < 0xDC00 ∧ 0xDC00 ≤ rr1 ∧ rr1 < 0xE000 then
                    unquote fuel (r.drop 11)
                      (Char.ofNat (0x10000 + (rr - 0xD800) * 0x400 + (rr1 - 0xDC00)) :: acc)
                  else unquote fuel (r.drop 5) (Char.ofNat 0xFFFD :: acc)
              else unquote fuel (r.drop 5) (Char.ofNat rr :: acc)
          else
            match unescapeLetter e with
            | none => none
            | some ch => unquote fuel r2 (ch :: acc)
      else if c.toNat < 0x20 then none
      else unquote fuel r (c :: acc)

/-- A character that can stand in a number. -/
def isNumberChar (c : Char) : Bool :=
  isDigit c || c = '-' || c = '+' || c = '.' || c = 'e' || c = 'E'

/-- The end of a number: nothing, or an exponent. -/
def isExponentTail (s : List Char) : Bool :=
  match s with
  | [] => true
  | c :: r =>
    (c = 'e' || c = 'E') &&
      (match r with
       | [] => false
       | d :: r2 =>
         if d = '+' ∨ d = '-' then !r2.isEmpty && r2.all isDigit else r.all isDigit)

/-- The part of a number behind its integer digits: an optional fraction, then
an optional exponent. -/
def isFractionTail (s : List Char) : Bool :=
  match s with
  | c :: d :: r =>
    if c = '.' then isDigit d && isExponentTail (r.dropWhile isDigit) else isExponentTail s
  | _ => isExponentTail s

/-- The number grammar of the scanner: an optional minus sign, `0` or digits
without a leading zero, an optional fraction, an optional exponent. -/
def isNumberLiteral (s : List Char) : Bool :=
  s.all isNumberChar &&
    (match (match s with
            | [] => s
            | c :: r => if c = '-' then r else s) with
     | [] => false
     | c :: r =>
       if c = '0' then isFractionTail r
       else if isDigit c then isFractionTail (r.dropWhile isDigit)
       else false)

/-- The nesting the scanner accepts (`maxNestingDepth` of scanner.go). -/
def maxNestingDepth : Nat := 10000

/-- The error of a scan that ran out of steps; `jsonUnmarshalWeather` gives the
scan two steps for every character, which it cannot use up. -/
def outOfSteps : String := "json: scan out of steps"

/-- The `SyntaxError` of `encoding/json` on a character that cannot stand where
it does (the text leaves out the character and the place). -/
def invalidCharacter : String := "invalid character"

/-- The error on an input that ends inside a value. -/
def unexpectedEnd : String := "unexpected end of JSON input"

mutual

/-- One JSON value at the head of the input, below `depth` open arrays and
objects: its tree and the input behind it. -/
def parseValue : Nat → Nat → List Char → Except String (JSONValue String × List Char)
  | 0, _, _ => .error outOfSteps
  | fuel + 1, depth, s =>
    match skipSpace s with
    | [] => .error unexpectedEnd
    | c :: r =>
      if c = '{' then
        if maxNestingDepth < depth + 1 then .error "exceeded max depth"
        else
          match skipSpace r with
          | [] => .error unexpectedEnd
          | c2 :: r2 =>
            if c2 = '}' then .ok (.object [], r2)
            else parseMembers fuel (depth + 1) (c2 :: r2) []
      else if c = '[' then
        if maxNestingDepth < depth + 1 then .error "exceeded max depth"
        else
          match skipSpace r with
          | [] => .error unexpectedEnd
          | c2 :: r2 =>
            if c2 = ']' then .ok (.array [], r2)
            else parseElements fuel (depth + 1) (c2 :: r2) []
      else if c = '"' then
        match unquote (r.length + 1) r [] with
        | none => .error invalidCharacter
        | some (str, r2) => .ok (.string str, r2)
      else if c = 't' then
        match r with
        | 'r' :: 'u' :: 'e' :: r2 => .ok (.bool true, r2)
        | _ => .error invalidCharacter
      else if c = 'f' then
        match r with
        | 'a' :: 'l' :: 's' :: 'e' :: r2 => .ok (.bool false, r2)
        | _ => .error invalidCharacter
      else if c = 'n' then
        match r with
        | 'u' :: 'l' :: 'l' :: r2 => .ok (.null, r2)
        | _ => .error invalidCharacter
      else if c = '-' ∨ isDigit c then
        if isNumberLiteral ((c :: r).takeWhile isNumberChar) then
          .ok (.number (String.mk ((c :: r).takeWhile isNumberChar)),
               (c :: r).dropWhile isNumberChar)
        else .error invalidCharacter
      else .error invalidCharacter

/-- The elements of an array from one element on, `acc` the elements read. -/
def parseElements :
    Nat → Nat → List Char → List (JSONValue String) →
      Except String (JSONValue String × List Char)
  | 0, _, _, _ => .error outOfSteps
  | fuel + 1, depth, s, acc =>
    match parseValue fuel depth s with
    | .error e => .error e
    | .ok (v, r) =>
      match skipSpace r with
      | [] => .error unexpectedEnd
      | c :: r2 =>
        if c = ',' then parseElements fuel depth r2 (acc ++ [v])
        else if c = ']' then .ok (.array (acc ++ [v]), r2)
        else .error invalidCharacter

/-- The members of an object from one member on, `acc` the members read. -/
def parseMembers :
    Nat → Nat → List Char → List (String × JSONValue String) →
      Except String (JSONValue String × List Char)
  | 0, _, _, _ => .error outOfSteps
  | fuel + 1, depth, s, acc =>
    match skipSpace s with
    | [] => .error unexpectedEnd
    | c :: r =>
      if c = '"' then
        match unquote (r.length + 1) r [] with
        | none => .error invalidCharacter
        | some (key, r1) =>
          match skipSpace r1 with
          | [] => .error unexpectedEnd
          | c1 :: r2 =>
            if c1 = ':' then
              match parseValue fuel depth r2 with
              | .error e => .error e
              | .ok (v, r3) =>
                match skipSpace r3 with
                | [] => .error unexpectedEnd
                | c3 :: r4 =>
                  if c3 = ',' then parseMembers fuel depth r4 (acc ++ [(key, v)])
                  else if c3 = '}' then .ok (.object (acc ++ [(key, v)]), r4)
                  else .error invalidCharacter
            else .error invalidCharacter
      else .error invalidCharacter

end

/-- Go `checkValid` with the tree it has scanned: the whole input is one JSON
value between white space. -/
def scanJSON (data : List Char) : Except String (JSONValue String) :=
  match parseValue (2 * data.length + 2) 0 data with
  | .error e => .error e
  | .ok (t, rest) =>
    match skipSpace rest with
    | [] => .ok t
    | _ :: _ => .error invalidCharacter

/-- The order of Go `strings.Compare` on the characters of two keys. -/
def keyLess : List Char → List Char → Bool
  | _, [] => false
  | [], _ :: _ => true
  | a :: as, b :: bs => a.toNat < b.toNat || (a.toNat = b.toNat && keyLess as bs)

/-- The assignment `m[k] = v` on a map held by increasing key. -/
def insertMember {α : Type} (k : String) (v : α) : List (String × α) → List (String × α)
  | [] => [(k, v)]
  | (k2, v2) :: rest =>
    if k = k2 then (k, v) :: rest
    else if keyLess k.data k2.data then (k, v) :: (k2, v2) :: rest
    else (k2, v2) :: insertMember k v rest

/-- The `float64` functions of `strconv` that `encoding/json` calls, on a type
`F` of finite `float64` values. -/
structure Float64 (F : Type) where
  /-- Go `strconv.ParseFloat(s, 64)`, `none` when it returns an error (the
  value is out of range). -/
  parse : String → Option F
  /-- The text the encoder writes for a `float64`: `strconv.AppendFloat` with
  precision `-1`, in format `f` or `e` by magnitude. -/
  format : F → String
  /-- The encoder writes a number of the JSON grammar. -/
  format_number : ∀ f, isNumberLiteral (format f).data = true
  /-- The contract of precision `-1`: "the smallest number of digits necessary
  such that ParseFloat will return f exactly". -/
  parse_format : ∀ f, parse (format f) = some f

/-- The `UnmarshalTypeError` of a number that does not fit a `float64` (the
text leaves out the struct field). -/
def numberError (lit : String) : String :=
  "json: cannot unmarshal number " ++ lit ++ " into Go value of type float64"

mutual

/-- Go `valueInterface`: the `interface{}` value of a scanned tree; numbers go
through `strconv.ParseFloat`, and the first that fails is the error. -/
def convertValue {F : Type} (parse : String → Option F) :
    JSONValue String → Except String (JSONValue F)
  | .null => .ok .null
  | .bool b => .ok (.bool b)
  | .number lit =>
    match parse lit with
    | none => .error (numberError lit)
    | some f => .ok (.number f)
  | .string s => .ok (.string s)
  | .array xs =>
    match convertElems parse xs with
    | .error e => .error e
    | .ok ys => .ok (.array ys)
  | .object ms =>
    match convertMembers parse ms [] with
    | .error e => .error e
    | .ok m => .ok (.object m)

/-- Go `arrayInterface`: the elements in order. -/
def convertElems {F : Type} (parse : String → Option F) :
    List (JSONValue String) → Except String (List (JSONValue F))
  | [] => .ok []
  | x :: xs =>
    match convertValue parse x with
    | .error e => .error e
    | .ok y =>
      match convertElems parse xs with
      | .error e => .error e
      | .ok ys => .ok (y :: ys)

/-- Go `objectInterface`: the members assigned to the map `acc` in order. -/
def convertMembers {F : Type} (parse : String → Option F) :
    List (String × JSONValue String) → List (String × JSONValue F) →
      Except String (List (String × JSONValue F))
  | [], acc => .ok acc
  | (k, x) :: ms, acc =>
    match convertValue parse x with
    | .error e => .error e
    | .ok y => convertMembers parse ms (insertMember k y acc)

end

/-- The fields of `WeatherResponse`. -/
inductive Field where
  | metadata
  | units
  | dataCurrent
  deriving DecidableEq, Repr

/-- Go `foldName` on one character, as far as an ASCII name is concerned: a
small ASCII letter folds to its capital, U+017F to `S` and U+212A to `K`; no
other character folds to an ASCII one. -/
def foldChar (c : Char) : Char :=
  if 97 ≤ c.toNat ∧ c.toNat ≤ 122 then Char.ofNat (c.toNat - 32)
  else if c.toNat = 0x17F then 'S'
  else if c.toNat = 0x212A then 'K'
  else c

/-- The field an object key names: the one with that JSON name, and failing
that the one whose folded name is the folded key. -/
def fieldOf (key : String) : Option Field :=
  if key = "metadata" then some .metadata
  else if key = "units" then some .units
  else if key = "data_current" then some .dataCurrent
  else if key.data.map foldChar = "METADATA".data then some .metadata
  else if key.data.map foldChar = "UNITS".data then some .units
  else if key.data.map foldChar = "DATA_CURRENT".data then some .dataCurrent
  else none

/-- The assignment to a field. -/
def WeatherResponse.set {J : Type} (w : WeatherResponse J) (fld : Field) (v : J) :
    WeatherResponse J :=
  match fld with
  | .metadata => { w with Metadata := v }
  | .units => { w with Units := v }
  | .dataCurrent => { w with DataCurrent := v }

/-- Go `decodeState.object` on a `WeatherResponse`: each member in order, the
value of a member that names a field decoded and assigned, the others
skipped. -/
def decodeStruct {F : Type} (parse : String → Option F) :
    List (String × JSONValue String) → WeatherResponse (JSONValue F) →
      Except String (WeatherResponse (JSONValue F))
  | [], w => .ok w
  | (k, x) :: ms, w =>
    match fieldOf k with
    | none => decodeStruct parse ms w
    | some fld =>
      match convertValue parse x with
      | .error e => .error e
      | .ok y => decodeStruct parse ms (w.set fld y)

/-- The error of a JSON value that is no object. -/
def typeError (kind : String) : String :=
  "json: cannot unmarshal " ++ kind ++ " into Go value of type main.WeatherResponse"

/-- Go `json.Unmarshal(body, &weatherData)` into a zero `WeatherResponse`. -/
def jsonUnmarshalWeather {F : Type} (parse : String → Option F) (body : String) :
    Except String (WeatherResponse (JSONValue F)) :=
  match scanJSON body.data with
  | .error e => .error e
  | .ok t =>
    match t with
    | .object ms => decodeStruct parse ms ⟨.null, .null, .null⟩
    | .null => .ok ⟨.null, .null, .null⟩
    | .bool _ => .error (typeError "bool")
    | .number _ => .error (typeError "number")
    | .string _ => .error (typeError "string")
    | .array _ => .error (typeError "array")

/-- A hexadecimal digit, as the encoder writes it. -/
def hexDigit (n : Nat) : Char :=
  if n < 10 then Char.ofNat (48 + n) else Char.ofNat (87 + n)

/-- What the encoder writes for one character of a string (`appendString` with
`escapeHTML` set). -/
def escapeChar (c : Char) : List Char :=
  if c = '"' then ['\\', '"']
  else if c = '\\' then ['\\', '\\']
  else if c.toNat = 8 then ['\\', 'b']
  else if c.toNat = 12 then ['\\', 'f']
  else if c = '\n' then ['\\', 'n']
  else if c = '\r' then ['\\', 'r']
  else if c = '\t' then ['\\', 't']
  else if c.toNat < 0x20 ∨ c = '<' ∨ c = '>' ∨ c = '&' then
    ['\\', 'u', '0', '0', hexDigit (c.toNat / 16), hexDigit (c.toNat % 16)]
  else if c.toNat = 0x2028 ∨ c.toNat = 0x2029 then
    ['\\', 'u', '2', '0', '2', hexDigit (c.toNat % 16)]
  else [c]

/-- The escaped characters of a string. -/
def escapeChars : List Char → List Char
  | [] => []
  | c :: cs => escapeChar c ++ escapeChars cs

/-- Go `appendString`: the string between quotes, escaped. -/
def appendString (s : String) : List Char :=
  '"' :: (escapeChars s.data ++ ['"'])

mutual

/-- The text the encoder writes for an `interface{}` value. -/
def appendValue {N : Type} (fmt : N → String) : JSONValue N → List Char
  | .null => ['n', 'u', 'l', 'l']
  | .bool b => if b then ['t', 'r', 'u', 'e'] else ['f', 'a', 'l', 's', 'e']
  | .number n => (fmt n).data
  | .string s => appendString s
  | .array [] => ['[', ']']
  | .array (x :: xs) => '[' :: (appendValue fmt x ++ appendElems fmt xs)
  | .object [] => ['{', '}']
  | .object ((k, x) :: ms) =>
    '{' :: (appendString k ++ ':' :: (appendValue fmt x ++ appendMembers fmt ms))

/-- The elements after the first, each behind a comma, and the closing
bracket. -/
def appendElems {N : Type} (fmt : N → String) : List (JSONValue N) → List Char
  | [] => [']']
  | x :: xs => ',' :: (appendValue fmt x ++ appendElems fmt xs)

/-- The members after the first, each behind a comma, and the closing
brace. -/
def appendMembers {N : Type} (fmt : N → String) : List (String × JSONValue N) → List Char
  | [] => ['}']
  | (k, x) :: ms =>
    ',' :: (appendString k ++ ':' :: (appendValue fmt x ++ appendMembers fmt ms))

end

/-- Go `json.Marshal` of a `*WeatherResponse` whose fields hold decoded
values. -/
def jsonMarshalWeather {F : Type} (fmt : F → String) (w : WeatherResponse (JSONValue F)) :
    String :=
  String.mk ("\x7b\"metadata\":".data ++ appendValue fmt w.Metadata ++
    ",\"units\":".data ++ appendValue fmt w.Units ++
    ",\"data_current\":".data ++ appendValue fmt w.DataCurrent ++ ['}'])

mutual

/-- The number of arrays and objects nested in a value. -/
def height {N : Type} : JSONValue N → Nat
  | .null => 0
  | .bool _ => 0
  | .number _ => 0
  | .string _ => 0
  | .array xs => heightElems xs + 1
  | .object ms => heightMembers ms + 1

/-- The greatest height among the elements. -/
def heightElems {N : Type} : List (JSONValue N) → Nat
  | [] => 0
  | x :: xs => max (height x) (heightElems xs)

/-- The greatest height among the member values. -/
def heightMembers {N : Type} : List (String × JSONValue N) → Nat
  | [] => 0
  | (_, x) :: ms => max (height x) (heightMembers ms)

end

mutual

/-- The tree of the text the encoder writes for a value: each number replaced
by its text. -/
def render {N : Type} (fmt : N → String) : JSONValue N → JSONValue String
  | .null => .null
  | .bool b => .bool b
  | .number n => .number (fmt n)
  | .string s => .string s
  | .array xs => .array (renderElems fmt xs)
  | .object ms => .object (renderMembers fmt ms)

/-- The trees of the elements. -/
def renderElems {N : Type} (fmt : N → String) : List (JSONValue N) → List (JSONValue String)
  | [] => []
  | x :: xs => render fmt x :: renderElems fmt xs

/-- The trees of the members. -/
def renderMembers {N : Type} (fmt : N → String) :
    List (String × JSONValue N) → List (String × JSONValue String)
  | [] => []
  | (k, x) :: ms => (k, render fmt x) :: renderMembers fmt ms

end

/-- The keys of a map stand in increasing order, each once. -/
def keysIncreasing {α : Type} : List (String × α) → Prop
  | [] => True
  | (k, _) :: ms => (∀ m ∈ ms, keyLess k.data m.1.data = true) ∧ keysIncreasing ms

mutual

/-- Every object in the value is a Go map: its keys increase. -/
def isGoValue {N : Type} : JSONValue N → Prop
  | .null => True
  | .bool _ => True
  | .number _ => True
  | .string _ => True
  | .array xs => isGoElems xs
  | .object ms => keysIncreasing ms ∧ isGoMembers ms

/-- Every element is a Go value. -/
def isGoElems {N : Type} : List (JSONValue N) → Prop
  | [] => True
  | x :: xs => isGoValue x ∧ isGoElems xs

/-- Every member value is a Go value. -/
def isGoMembers {N : Type} : List (String × JSONValue N) → Prop
  | [] => True
  | (_, x) :: ms => isGoValue x ∧ isGoMembers ms

end

/-- The input behind a value does not go on like a number. -/
def Terminated (rest : List Char) : Prop :=
  ∀ c, rest.head? = some c → isNumberChar c = false


/-- A field value `json.Unmarshal` can have stored: a Go value that was
scanned inside the top-level object. -/
def isDecodedField {N : Type} (v : JSONValue N) : Prop :=
  isGoValue v ∧ height v + 1 ≤ maxNestingDepth

/-- The three fields are values `json.Unmarshal` can have stored. -/
def isDecoded {N : Type} (w : WeatherResponse (JSONValue N)) : Prop :=
  isDecodedField w.Metadata ∧ isDecodedField w.Units ∧ isDecodedField w.DataCurrent


/-- The body is a JSON object: the scanner accepts it, and the value it holds
is an object. -/
def isJSONObject (body : String) : Bool :=
  match scanJSON body.data with
  | .ok (.object _) => true
  | _ => false

/-- The world in which the JSON functions on the weather body are those of
`encoding/json` over the `float64` functions `fl`; the network, the decoding of
the geolocation body and the `%f` verb stay parameters. -/
def goWorld {F : Type} (fl : Float64 F) (httpGet : String → Except String HttpResponse)
    (unmarshalLocation : String → Except String (IPLocation F)) (formatFloat : F → String) :
    World F (JSONValue F) where
  httpGet := httpGet
  unmarshalLocation := unmarshalLocation
  unmarshalWeather := jsonUnmarshalWeather fl.parse
  marshalWeather := fun v => .ok (jsonMarshalWeather fl.format v)
  formatFloat := formatFloat

/-! ## Sample inputs -/

/-- Sample `float64` values: `0`, `40.7` and `-74.0`. -/
inductive SampleFloat where
  | zero
  | lat40_7
  | lonNeg74
  deriving DecidableEq, Repr

/-- Sample decoded JSON values: `null`, the empty object and the object with
the one member `temp` of value `20`. -/
inductive SampleJSON where
  | null
  | emptyObject
  | tempObject
  deriving DecidableEq, Repr

/-- The JSON text of a sample value. -/
def SampleJSON.text : SampleJSON → String
  | .null => "null"
  | .emptyObject => "\x7b\x7d"
  | .tempObject => "\x7b\"temp\":20\x7d"

/-- The geolocation URL of the sample IP `8.8.8.8`. -/
def sampleGeoURL : String := "http://ip-api.com/json/8.8.8.8"

/-- The weather URL of the sample coordinates and the sample key `KEY`. -/
def sampleWeatherURL : String :=
  "https://my.meteoblue.com/packages/current?apikey=KEY&lat=40.700000&lon=-74.000000&format=json"

/-- A successful geolocation body. -/
def sampleGeoBody : String :=
  "\x7b\"status\":\"success\",\"lat\":40.7,\"lon\":-74.0,\"city\":\"NYC\",\"country\":\"US\"\x7d"

/-- A geolocation body reporting failure. -/
def sampleGeoFailBody : String := "\x7b\"status\":\"fail\"\x7d"

/-- A weather body. -/
def sampleWeatherBody : String :=
  "\x7b\"metadata\":\x7b\x7d,\"units\":\x7b\x7d,\"data_current\":\x7b\"temp\":20\x7d\x7d"

/-- A world in which the geolocation upstream answers `geo` for `8.8.8.8`, the
weather upstream answers `weather` for the sample coordinates, and nothing
else is reachable; the JSON functions know the sample bodies. -/
def sampleWorld (geo weather : Except String HttpResponse) : World SampleFloat SampleJSON where
  httpGet := fun url =>
    if url = sampleGeoURL then geo
    else if url = sampleWeatherURL then weather
    else .error "dial tcp: no such host"
  unmarshalLocation := fun body =>
    if body = sampleGeoBody then .ok ⟨"success", .lat40_7, .lonNeg74, "NYC", "US"⟩
    else if body = sampleGeoFailBody then .ok ⟨"fail", .zero, .zero, "", ""⟩
    else .error "invalid character"
  unmarshalWeather := fun body =>
    if body = sampleWeatherBody ∨ body = sampleWeatherBody ++ "\n" then
      .ok ⟨.emptyObject, .emptyObject, .tempObject⟩
    else .error "invalid character"
  marshalWeather := fun v =>
    .ok ("\x7b\"metadata\":" ++ v.Metadata.text ++ ",\"units\":" ++ v.Units.text ++
      ",\"data_current\":" ++ v.DataCurrent.text ++ "\x7d")
  formatFloat := fun x =>
    match x with
    | .zero => "0.000000"
    | .lat40_7 => "40.700000"
    | .lonNeg74 => "-74.000000"

/-- A response whose body reads as `body`. -/
def okBody (body : String) : Except String HttpResponse := .ok ⟨.ok body⟩

/-- The sample configuration. -/
def sampleConfig : Config := ⟨"KEY", "8080"⟩

/-- A request with `ip=8.8.8.8`, a forwarding header and a peer address. -/
def reqParam : Request where
  Query := fun k => if k = "ip" then ["8.8.8.8"] else []
  Header := fun k => if k = "X-Forwarded-For" then ["1.2.3.4, 5.6.7.8"] else []
  RemoteAddr := "9.9.9.9:80"

/-- A request without `ip` and with the forwarding header `1.2.3.4, 5.6.7.8`. -/
def reqForwarded : Request where
  Query := fun _ => []
  Header := fun k => if k = "X-Forwarded-For" then ["1.2.3.4, 5.6.7.8"] else []
  RemoteAddr := "9.9.9.9:80"

/-- A request without `ip` whose forwarding header has a tab, blanks and a
no-break space round its first entry. -/
def reqForwardedPadded : Request where
  Query := fun _ => []
  Header := fun k => if k = "X-Forwarded-For" then ["\t 1.2.3.4 \u00a0 , 5.6.7.8"] else []
  RemoteAddr := "9.9.9.9:80"

/-- A request with neither `ip` nor a forwarding header, from `addr`. -/
def reqPeer (addr : String) : Request where
  Query := fun _ => []
  Header := fun _ => []
  RemoteAddr := addr

/-- An environment in which `METEOBLUE_API_KEY` is set, to the empty text. -/
def envEmptyKey : Env := fun k => if k = "METEOBLUE_API_KEY" then some "" else none

/-- An environment with the key `KEY` and `PORT` set, to the empty text. -/
def envEmptyPort : Env := fun k =>
  if k = "METEOBLUE_API_KEY" then some "KEY" else if k = "PORT" then some "" else none

/-- An environment with the key `KEY` and no `PORT`. -/
def envKeyOnly : Env := fun k => if k = "METEOBLUE_API_KEY" then some "KEY" else none

/-- An environment with the key `KEY` and `PORT=9000`. -/
def envKeyPort : Env := fun k =>
  if k = "METEOBLUE_API_KEY" then some "KEY" else if k = "PORT" then some "9000" else none

/-- A listener that keeps serving. -/
def serveForever : String → Option String := fun _ => none

/-- Sample `float64` values for the JSON codec: `0`, `20`, `40.7` and `-74`. -/
inductive SampleNumber where
  | zero
  | twenty
  | lat40_7
  | lonNeg74
  deriving DecidableEq, Repr

/-- The `strconv` functions on the sample values: the four texts the encoder
writes are read back, every other text is refused, as is `1e400`, which
exceeds the `float64` range. -/
def sampleFloat64 : Float64 SampleNumber where
  parse := fun s =>
    if s = "0" then some .zero
    else if s = "20" then some .twenty
    else if s = "40.7" then some .lat40_7
    else if s = "-74" then some .lonNeg74
    else none
  format := fun x =>
    match x with
    | .zero => "0"
    | .twenty => "20"
    | .lat40_7 => "40.7"
    | .lonNeg74 => "-74"
  format_number := fun x => by cases x <;> decide
  parse_format := fun x => by cases x <;> decide

/-- A weather body that is a JSON object holding the number `1e400`. -/
def sampleOverflowBody : String :=
  "\x7b\"metadata\":\x7b\"x\":1e400\x7d,\"units\":\x7b\x7d,\"data_current\":\x7b\"temp\":20\x7d\x7d"

/-- The sample world with the JSON codec of `encoding/json`: the geolocation
upstream answers `geo` for `8.8.8.8` and the weather upstream `weather` for
the sample coordinates. -/
def sampleGoWorld (geo weather : Except String HttpResponse) :
    World SampleNumber (JSONValue SampleNumber) :=
  goWorld sampleFloat64
    (fun url =>
      if url = sampleGeoURL then geo
      else if url = sampleWeatherURL then weather
      else .error "dial tcp: no such host")
    (fun body =>
      if body = sampleGeoBody then .ok ⟨"success", .lat40_7, .lonNeg74, "NYC", "US"⟩
      else if body = sampleGeoFailBody then .ok ⟨"fail", .zero, .zero, "", ""⟩
      else .error "invalid character")
    (fun x =>
      match x with
      | .zero => "0.000000"
      | .twenty => "20.000000"
      | .lat40_7 => "40.700000"
      | .lonNeg74 => "-74.000000")

/-! ## Lemmas on the string functions -/

theorem splitAux_get_zero (sep : Char) (s acc : List Char) :
    (splitAux sep s acc)[0]? = some (acc.reverse ++ s.takeWhile (fun c => c ≠ sep)) := by
  induction s generalizing acc with
  | nil => simp [splitAux]
  | cons c cs ih =>
    by_cases h : c = sep
    · simp [splitAux, h]
    · rw [splitAux, if_neg h, ih]
      simp [h]

theorem split_get_zero (s : String) (sep : Char) :
    (split s sep)[0]? = some (String.mk (s.data.takeWhile (fun c => c ≠ sep))) := by
  have h := splitAux_get_zero sep s.data []
  simp only [List.reverse_nil, List.nil_append] at h
  simp only [split, List.getElem?_map, h, Option.map_some']

theorem indexByte_some {s : List Char} {c : Char} {i : Nat} (h : indexByte s c = some i) :
    s[i]? = some c := by
  unfold indexByte at h
  split at h
  · rename_i hlt
    cases h
    rw [List.getElem?_eq_getElem hlt, List.getElem_indexOf hlt]
  · cases h

theorem lastIndexByte_some {s : List Char} {c : Char} {i : Nat}
    (h : lastIndexByte s c = some i) : s[i]? = some c := by
  unfold lastIndexByte at h
  split at h
  · rename_i j hj
    cases h
    have hj2 := indexByte_some hj
    have hlt : j < s.length := by
      have := (List.getElem?_eq_some_iff.mp hj2).1
      simpa using this
    rw [List.getElem?_reverse hlt] at hj2
    exact hj2
  · cases h

theorem split_at_index {s : List Char} {c : Char} {i : Nat} (h : s[i]? = some c) :
    s = s.take i ++ c :: s.drop (i + 1) := by
  obtain ⟨hlt, hget⟩ := List.getElem?_eq_some_iff.mp h
  conv_lhs => rw [← List.take_append_drop i s]
  rw [List.drop_eq_getElem_cons hlt, hget]

/-- A successful `net.SplitHostPort` has read `host:port` or `[host]:port`. -/
theorem splitHostPortChars_ok {s h p : List Char} (hs : splitHostPortChars s = .ok (h, p)) :
    s = h ++ ':' :: p ∨ s = '[' :: (h ++ ']' :: ':' :: p) := by
  unfold splitHostPortChars at hs
  split at hs
  · cases hs
  · rename_i i hi
    have hcolon := lastIndexByte_some hi
    split at hs
    · rename_i hhead
      split at hs
      · cases hs
      · rename_i e he
        have hclose := indexByte_some he
        split at hs
        · cases hs
        · split at hs
          · rename_i hne hei
            unfold splitHostPortTail at hs
            split at hs
            · cases hs
            · split at hs
              · cases hs
              · simp only [Except.ok.injEq, Prod.mk.injEq] at hs
                obtain ⟨hh, hp⟩ := hs
                right
                subst hei
                cases s with
                | nil => simp at hhead
                | cons a t =>
                  simp only [List.head?_cons, Option.some.injEq] at hhead
                  subst hhead
                  cases e with
                  | zero => simp at hclose
                  | succ e =>
                    simp only [List.getElem?_cons_succ] at hclose hcolon
                    simp only [List.take_succ_cons, List.drop_succ_cons, List.drop_zero] at hh hp
                    subst hh hp
                    have h1 := split_at_index hclose
                    have h2 : t.drop (e + 1) = ':' :: t.drop (e + 1 + 1) := by
                      obtain ⟨hlt, hget⟩ := List.getElem?_eq_some_iff.mp hcolon
                      rw [List.drop_eq_getElem_cons hlt, hget]
                    rw [h2] at h1
                    exact congrArg (List.cons '[') h1
          · split at hs <;> cases hs
    · split at hs
      · cases hs
      · unfold splitHostPortTail at hs
        split at hs
        · cases hs
        · split at hs
          · cases hs
          · simp only [List.drop_zero, Except.ok.injEq, Prod.mk.injEq] at hs
            obtain ⟨hh, hp⟩ := hs
            left
            subst hh hp
            exact split_at_index hcolon

/-- A successful `net.SplitHostPort` has read `host:port` or `[host]:port`. -/
theorem SplitHostPort_ok {a h p : String} (hs : SplitHostPort a = .ok (h, p)) :
    a = h ++ ":" ++ p ∨ a = "[" ++ h ++ "]:" ++ p := by
  unfold SplitHostPort at hs
  split at hs
  · rename_i h0 p0 hc
    simp only [Except.ok.injEq, Prod.mk.injEq] at hs
    obtain ⟨hh, hp⟩ := hs
    subst hh hp
    rcases splitHostPortChars_ok hc with h1 | h1
    · left
      apply String.ext
      simp [h1]
    · right
      apply String.ext
      simp [h1]
  · cases hs

theorem lastIndexByte_none {s : List Char} {c : Char} (h : c ∉ s) :
    lastIndexByte s c = none := by
  have h2 : ¬ (s.reverse.indexOf c < s.reverse.length) := by
    rw [List.indexOf_lt_length]
    simpa using h
  rw [List.length_reverse] at h2
  simp [lastIndexByte, indexByte, h2]

/-- What `strings.TrimSpace` does: the result is the input without a run of
white space at the front and a run of white space at the back, and the result
neither starts nor ends with white space. -/
theorem trimSpaceChars_spec (s : List Char) :
    (∃ front back, s = front ++ trimSpaceChars s ++ back ∧
      (∀ c ∈ front, isSpace c = true) ∧ (∀ c ∈ back, isSpace c = true)) ∧
    (∀ c, (trimSpaceChars s).head? = some c → isSpace c = false) ∧
    (∀ c, (trimSpaceChars s).getLast? = some c → isSpace c = false) := by
  have hmid : (s.dropWhile isSpace) =
      trimSpaceChars s ++ ((s.dropWhile isSpace).reverse.takeWhile isSpace).reverse := by
    have h := List.takeWhile_append_dropWhile isSpace (s.dropWhile isSpace).reverse
    have h2 := congrArg List.reverse h
    rw [List.reverse_append, List.reverse_reverse] at h2
    exact h2.symm
  have hlast : ∀ c, (trimSpaceChars s).getLast? = some c → isSpace c = false := by
    intro c hc
    have h := List.head?_dropWhile_not isSpace (s.dropWhile isSpace).reverse
    unfold trimSpaceChars at hc
    rw [List.getLast?_reverse] at hc
    rw [hc] at h
    exact h
  refine ⟨⟨s.takeWhile isSpace, ((s.dropWhile isSpace).reverse.takeWhile isSpace).reverse,
    ?_, ?_, ?_⟩, ?_, hlast⟩
  · rw [List.append_assoc, ← hmid, List.takeWhile_append_dropWhile]
  · intro c hc
    exact (List.mem_takeWhile_imp hc)
  · intro c hc
    rw [List.mem_reverse] at hc
    exact (List.mem_takeWhile_imp hc)
  · intro c hc
    have h := List.head?_dropWhile_not isSpace s
    cases ht : trimSpaceChars s with
    | nil => rw [ht] at hc; cases hc
    | cons a t =>
      rw [ht] at hc hmid
      simp only [List.head?_cons, Option.some.injEq] at hc
      subst hc
      rw [hmid] at h
      simpa using h

theorem getClientIP_total (r : Request) : ∃ ip, getClientIP r = some ip := by
  unfold getClientIP
  by_cases hx : r.Header.Get "X-Forwarded-For" = ""
  · simp only [hx, ne_eq, not_true_eq_false, if_false]
    cases SplitHostPort r.RemoteAddr with
    | error e => exact ⟨_, rfl⟩
    | ok hp => exact ⟨_, rfl⟩
  · simp only [ne_eq, hx, not_false_eq_true, if_true, split_get_zero]
    exact ⟨_, rfl⟩

theorem resolveIP_total (r : Request) : ∃ ip out, resolveIP r = some (ip, out) := by
  unfold resolveIP
  by_cases hq : r.Query.Get "ip" = ""
  · obtain ⟨ip, hip⟩ := getClientIP_total r
    simp only [hq, ne_eq, not_true_eq_false, if_false, hip]
    exact ⟨_, _, rfl⟩
  · simp only [ne_eq, hq, not_false_eq_true, if_true]
    exact ⟨_, _, rfl⟩

theorem getLocationFromIP_effects {F J : Type} (W : World F J) (ip : String) :
    (getLocationFromIP W ip).1 = [.httpGet ("http://ip-api.com/json/" ++ ip)] := by
  unfold getLocationFromIP
  dsimp only
  split
  · rfl
  · split
    · rfl
    · split
      · rfl
      · split <;> rfl

theorem getWeatherData_effects {F J : Type} (W : World F J) (lat lon : F) (apiKey : String) :
    (getWeatherData W lat lon apiKey).1 = [.httpGet (weatherURL W lat lon apiKey)] := by
  unfold getWeatherData
  dsimp only
  split
  · rfl
  · split
    · rfl
    · split <;> rfl

theorem respond_location_error {F J : Type} (W : World F J) (config : Config)
    (w : ResponseWriter) (ip err : String)
    (h : (getLocationFromIP W ip).2 = .error err) :
    respond W config w ip =
      ([.httpGet ("http://ip-api.com/json/" ++ ip)],
       httpError w ("Error getting location: " ++ err) 500) := by
  have he := getLocationFromIP_effects W ip
  unfold respond
  rcases hg : getLocationFromIP W ip with ⟨e1, res⟩
  rw [hg] at h he
  simp only at h he
  subst h he
  rfl

theorem respond_weather_error {F J : Type} (W : World F J) (config : Config)
    (w : ResponseWriter) (ip err : String) (location : IPLocation F)
    (h : (getLocationFromIP W ip).2 = .ok location)
    (h2 : (getWeatherData W location.Lat location.Lon config.MeteoBlueAPIKey).2 = .error err) :
    respond W config w ip =
      ([.httpGet ("http://ip-api.com/json/" ++ ip),
        .httpGet (weatherURL W location.Lat location.Lon config.MeteoBlueAPIKey)],
       httpError w ("Error getting weather data: " ++ err) 500) := by
  have he := getLocationFromIP_effects W ip
  have he2 := getWeatherData_effects W location.Lat location.Lon config.MeteoBlueAPIKey
  unfold respond
  rcases hg : getLocationFromIP W ip with ⟨e1, res⟩
  rw [hg] at h he
  simp only at h he
  subst h he
  dsimp only
  rcases hg2 : getWeatherData W location.Lat location.Lon config.MeteoBlueAPIKey with ⟨e2, res2⟩
  rw [hg2] at h2 he2
  simp only at h2 he2
  subst h2 he2
  rfl

theorem respond_success {F J : Type} (W : World F J) (config : Config)
    (w : ResponseWriter) (ip : String) (location : IPLocation F)
    (weatherData : WeatherResponse J)
    (h : (getLocationFromIP W ip).2 = .ok location)
    (h2 : (getWeatherData W location.Lat location.Lon config.MeteoBlueAPIKey).2 =
      .ok weatherData) :
    respond W config w ip =
      ([.httpGet ("http://ip-api.com/json/" ++ ip),
        .httpGet (weatherURL W location.Lat location.Lon config.MeteoBlueAPIKey)],
       encode W ((w.Set "Content-Type" "application/json").WriteHeader 200) weatherData) := by
  have he := getLocationFromIP_effects W ip
  have he2 := getWeatherData_effects W location.Lat location.Lon config.MeteoBlueAPIKey
  unfold respond
  rcases hg : getLocationFromIP W ip with ⟨e1, res⟩
  rw [hg] at h he
  simp only at h he
  subst h he
  dsimp only
  rcases hg2 : getWeatherData W location.Lat location.Lon config.MeteoBlueAPIKey with ⟨e2, res2⟩
  rw [hg2] at h2 he2
  simp only at h2 he2
  subst h2 he2
  rfl

theorem respond_effects_head {F J : Type} (W : World F J) (config : Config)
    (w : ResponseWriter) (ip : String) :
    (respond W config w ip).1[0]? = some (.httpGet ("http://ip-api.com/json/" ++ ip)) := by
  cases h : (getLocationFromIP W ip).2 with
  | error err => rw [respond_location_error W config w ip err h]; rfl
  | ok location =>
    cases h2 : (getWeatherData W location.Lat location.Lon config.MeteoBlueAPIKey).2 with
    | error err => rw [respond_weather_error W config w ip err location h h2]; rfl
    | ok wd => rw [respond_success W config w ip location wd h h2]; rfl

theorem handleGetWeather_eq {F J : Type} (W : World F J) (config : Config) (r : Request)
    (ip : String) (out : List Effect) (hr : resolveIP r = some (ip, out)) :
    handleGetWeather W config r =
      some (out ++ (respond W config ResponseWriter.fresh ip).1,
            (respond W config ResponseWriter.fresh ip).2) := by
  simp [handleGetWeather, hr]

theorem resolveIP_out {r : Request} {ip : String} {out : List Effect}
    (hr : resolveIP r = some (ip, out)) :
    out = [.stdout ("Using IP from request parameter: " ++ ip ++ "\n")] ∨
    out = [.stdout ("Detected client IP: " ++ ip ++ "\n")] := by
  unfold resolveIP at hr
  dsimp only at hr
  split at hr
  · simp only [Option.some.injEq, Prod.mk.injEq] at hr
    obtain ⟨h1, h2⟩ := hr
    subst h1
    exact Or.inl h2.symm
  · split at hr
    · cases hr
    · simp only [Option.some.injEq, Prod.mk.injEq] at hr
      obtain ⟨h1, h2⟩ := hr
      subst h1
      exact Or.inr h2.symm

theorem httpError_fresh (msg : String) (code : Nat) :
    httpError ResponseWriter.fresh msg code =
      ⟨[("Content-Type", "text/plain; charset=utf-8"), ("X-Content-Type-Options", "nosniff")],
        some code, msg ++ "\n"⟩ := by
  have h : ("" : String) ++ (msg ++ "\n") = msg ++ "\n" := by
    apply String.ext
    simp
  simp only [httpError, ResponseWriter.fresh, ResponseWriter.Del, ResponseWriter.Set,
    ResponseWriter.WriteHeader, ResponseWriter.Write, h]
  simp

theorem encode_fresh {F J : Type} (W : World F J) (v : WeatherResponse J) (b : String)
    (hm : W.marshalWeather v = .ok b) :
    encode W ((ResponseWriter.fresh.Set "Content-Type" "application/json").WriteHeader 200) v =
      ⟨[("Content-Type", "application/json")], some 200, b ++ "\n"⟩ := by
  have h : ("" : String) ++ (b ++ "\n") = b ++ "\n" := by
    apply String.ext
    simp
  simp only [encode, hm, ResponseWriter.fresh, ResponseWriter.Set,
    ResponseWriter.WriteHeader, ResponseWriter.Write, h]
  simp

theorem geoURL_ne_weatherURL {F J : Type} (W : World F J) (ip : String) (lat lon : F)
    (apiKey : String) : "http://ip-api.com/json/" ++ ip ≠ weatherURL W lat lon apiKey := by
  intro h
  have hd := congrArg String.data h
  have h1 : ("http://ip-api.com/json/" : String).data =
      ['h', 't', 't', 'p', ':'] ++ ("//ip-api.com/json/" : String).data := by decide
  have h2 : ("https://my.meteoblue.com/packages/current?apikey=" : String).data =
      ['h', 't', 't', 'p', 's'] ++
        ("://my.meteoblue.com/packages/current?apikey=" : String).data := by decide
  simp only [weatherURL, String.data_append, h1, h2, List.cons_append, List.nil_append,
    List.cons.injEq, true_and] at hd
  exact absurd hd.1 (by decide)

theorem handler_location_error {F J : Type} (W : World F J) (config : Config)
    (r : Request) (ip : String) (out : List Effect) (err : String)
    (hr : resolveIP r = some (ip, out))
    (he : (getLocationFromIP W ip).2 = .error err) :
    handleGetWeather W config r =
      some (out ++ [.httpGet ("http://ip-api.com/json/" ++ ip)],
        ⟨[("Content-Type", "text/plain; charset=utf-8"),
          ("X-Content-Type-Options", "nosniff")],
         some 500, "Error getting location: " ++ err ++ "\n"⟩) := by
  rw [handleGetWeather_eq W config r ip out hr,
    respond_location_error W config _ ip err he, httpError_fresh]

theorem handler_weather_error {F J : Type} (W : World F J) (config : Config)
    (r : Request) (ip : String) (out : List Effect) (location : IPLocation F) (err : String)
    (hr : resolveIP r = some (ip, out))
    (hl : (getLocationFromIP W ip).2 = .ok location)
    (he : (getWeatherData W location.Lat location.Lon config.MeteoBlueAPIKey).2 = .error err) :
    handleGetWeather W config r =
      some (out ++ [.httpGet ("http://ip-api.com/json/" ++ ip),
                    .httpGet (weatherURL W location.Lat location.Lon
                      config.MeteoBlueAPIKey)],
        ⟨[("Content-Type", "text/plain; charset=utf-8"),
          ("X-Content-Type-Options", "nosniff")],
         some 500, "Error getting weather data: " ++ err ++ "\n"⟩) := by
  rw [handleGetWeather_eq W config r ip out hr,
    respond_weather_error W config _ ip err location hl he, httpError_fresh]

/-! ## The client-IP resolver -/

/-- C4: when the first value of the query parameter `ip` is non-empty, the
handler resolves the IP to exactly that value, whatever the request header and
the peer address hold, and the geolocation client is called with it: the first
upstream request of the handler is the geolocation URL ending in that value. -/
theorem ip_param_used_verbatim {F J : Type} (W : World F J) (config : Config) (r : Request)
    (v : String) (rest : List String) (hq : r.Query "ip" = v :: rest) (hv : v ≠ "") :
    resolveIP r = some (v, [.stdout ("Using IP from request parameter: " ++ v ++ "\n")]) ∧
    handleGetWeather W config r =
      some (Effect.stdout ("Using IP from request parameter: " ++ v ++ "\n") ::
              (respond W config ResponseWriter.fresh v).1,
            (respond W config ResponseWriter.fresh v).2) ∧
    (getLocationFromIP W v).1 = [.httpGet ("http://ip-api.com/json/" ++ v)] ∧
    ∃ effs w, handleGetWeather W config r = some (effs, w) ∧
      effs[1]? = some (.httpGet ("http://ip-api.com/json/" ++ v)) := by
  have hget : r.Query.Get "ip" = v := by simp [Values.Get, hq]
  have hres : resolveIP r =
      some (v, [.stdout ("Using IP from request parameter: " ++ v ++ "\n")]) := by
    simp [resolveIP, hget, hv]
  have hh : handleGetWeather W config r =
      some (Effect.stdout ("Using IP from request parameter: " ++ v ++ "\n") ::
              (respond W config ResponseWriter.fresh v).1,
            (respond W config ResponseWriter.fresh v).2) := by
    simp [handleGetWeather, hres]
  refine ⟨hres, hh, getLocationFromIP_effects W v, _, _, hh, ?_⟩
  simpa using respond_effects_head W config ResponseWriter.fresh v

/-- C4 at the sample request: `ip=8.8.8.8` wins over the forwarding header
`1.2.3.4, 5.6.7.8` and the peer `9.9.9.9:80`. -/
theorem ip_param_used_verbatim_witness :
    resolveIP reqParam = some ("8.8.8.8", [.stdout "Using IP from request parameter: 8.8.8.8\n"]) :=
  (ip_param_used_verbatim (sampleWorld (okBody sampleGeoBody) (okBody sampleWeatherBody))
    sampleConfig reqParam "8.8.8.8" [] (by decide) (by decide)).1

/-- C5: without a non-empty `ip` parameter and with a non-empty
`X-Forwarded-For` value, the first element of the split value exists and is the
text before the first comma (the whole value when there is none), and the
resolved IP is that text with the surrounding white space trimmed: the text is
a run of white space, the resolved IP and a run of white space, and the
resolved IP neither starts nor ends with white space; and `getClientIP` returns
a string on every request. -/
theorem forwarded_for_first_entry (r : Request) (hip : r.Query.Get "ip" = "")
    (hx : r.Header.Get "X-Forwarded-For" ≠ "") :
    (split (r.Header.Get "X-Forwarded-For") ',')[0]? =
      some (String.mk ((r.Header.Get "X-Forwarded-For").data.takeWhile (fun c => c ≠ ','))) ∧
    (∃ ip : String, getClientIP r = some ip ∧
      resolveIP r = some (ip, [.stdout ("Detected client IP: " ++ ip ++ "\n")]) ∧
      ip = trimSpace
        (String.mk ((r.Header.Get "X-Forwarded-For").data.takeWhile (fun c => c ≠ ','))) ∧
      (∃ front back : List Char,
        (r.Header.Get "X-Forwarded-For").data.takeWhile (fun c => c ≠ ',') =
          front ++ ip.data ++ back ∧
        (∀ c ∈ front, isSpace c = true) ∧ (∀ c ∈ back, isSpace c = true)) ∧
      (∀ c, ip.data.head? = some c → isSpace c = false) ∧
      (∀ c, ip.data.getLast? = some c → isSpace c = false)) ∧
    ∀ r2 : Request, ∃ ip, getClientIP r2 = some ip := by
  have hc : getClientIP r = some (trimSpace
      (String.mk ((r.Header.Get "X-Forwarded-For").data.takeWhile (fun c => c ≠ ',')))) := by
    unfold getClientIP
    simp only [ne_eq, hx, not_false_eq_true, if_true, split_get_zero]
  have hspec := trimSpaceChars_spec
    ((r.Header.Get "X-Forwarded-For").data.takeWhile (fun c => c ≠ ','))
  refine ⟨split_get_zero _ _, ⟨_, hc, ?_, rfl, hspec.1, hspec.2.1, hspec.2.2⟩,
    getClientIP_total⟩
  unfold resolveIP
  simp only [hip, ne_eq, not_true_eq_false, if_false, hc]

/-- C5 at the header `1.2.3.4, 5.6.7.8`, where the resolved IP is `1.2.3.4`,
and at a header whose first entry stands between a tab, blanks, a no-break
space and the comma, where it is `1.2.3.4` too. -/
theorem forwarded_for_first_entry_witness :
    (getClientIP reqForwarded = some "1.2.3.4" ∧
      resolveIP reqForwarded = some ("1.2.3.4", [.stdout "Detected client IP: 1.2.3.4\n"])) ∧
    (getClientIP reqForwardedPadded = some "1.2.3.4" ∧
      resolveIP reqForwardedPadded =
        some ("1.2.3.4", [.stdout "Detected client IP: 1.2.3.4\n"])) := by
  obtain ⟨ip, h1, h2, h3, _⟩ :=
    (forwarded_for_first_entry reqForwarded (by decide) (by decide)).2.1
  obtain ⟨ip2, k1, k2, k3, _⟩ :=
    (forwarded_for_first_entry reqForwardedPadded (by decide) (by decide)).2.1
  have e1 : ip = "1.2.3.4" := h3.trans (by decide)
  have e2 : ip2 = "1.2.3.4" := k3.trans (by decide)
  subst e1 e2
  exact ⟨⟨h1, h2⟩, ⟨k1, k2⟩⟩

/-- C6: without a non-empty `ip` parameter and without a non-empty
`X-Forwarded-For` value, the resolved IP is the host of the peer address when
`net.SplitHostPort` splits it (the address is then `host:port` or
`[host]:port`), and the peer address itself, unmodified, when the split fails,
as it does on an address without a colon. -/
theorem peer_address_fallback (r : Request) (hip : r.Query.Get "ip" = "")
    (hx : r.Header.Get "X-Forwarded-For" = "") :
    (∀ host port, SplitHostPort r.RemoteAddr = .ok (host, port) →
      (r.RemoteAddr = host ++ ":" ++ port ∨ r.RemoteAddr = "[" ++ host ++ "]:" ++ port) ∧
      getClientIP r = some host ∧
      resolveIP r = some (host, [.stdout ("Detected client IP: " ++ host ++ "\n")])) ∧
    (∀ e, SplitHostPort r.RemoteAddr = .error e →
      getClientIP r = some r.RemoteAddr ∧
      resolveIP r =
        some (r.RemoteAddr, [.stdout ("Detected client IP: " ++ r.RemoteAddr ++ "\n")])) ∧
    (':' ∉ r.RemoteAddr.data →
      resolveIP r =
        some (r.RemoteAddr, [.stdout ("Detected client IP: " ++ r.RemoteAddr ++ "\n")])) := by
  have herr : ∀ e, SplitHostPort r.RemoteAddr = .error e →
      getClientIP r = some r.RemoteAddr ∧
      resolveIP r =
        some (r.RemoteAddr, [.stdout ("Detected client IP: " ++ r.RemoteAddr ++ "\n")]) := by
    intro e he
    have hc : getClientIP r = some r.RemoteAddr := by
      unfold getClientIP
      simp only [hx, ne_eq, not_true_eq_false, if_false, he]
    refine ⟨hc, ?_⟩
    unfold resolveIP
    simp only [hip, ne_eq, not_true_eq_false, if_false, hc]
  refine ⟨?_, herr, ?_⟩
  · intro host port hs
    have hc : getClientIP r = some host := by
      unfold getClientIP
      simp only [hx, ne_eq, not_true_eq_false, if_false, hs]
    refine ⟨SplitHostPort_ok hs, hc, ?_⟩
    unfold resolveIP
    simp only [hip, ne_eq, not_true_eq_false, if_false, hc]
  · intro hno
    have hs : SplitHostPort r.RemoteAddr = .error .missingPort := by
      simp [SplitHostPort, splitHostPortChars, lastIndexByte_none hno]
    exact (herr _ hs).2

/-- C6 at three peers: `8.8.8.8:51234` resolves to `8.8.8.8`, `[::1]:8080` to
`::1`, and `10.0.0.1`, which has no port, to itself. -/
theorem peer_address_fallback_witness :
    resolveIP (reqPeer "8.8.8.8:51234") =
      some ("8.8.8.8", [.stdout "Detected client IP: 8.8.8.8\n"]) ∧
    resolveIP (reqPeer "[::1]:8080") = some ("::1", [.stdout "Detected client IP: ::1\n"]) ∧
    resolveIP (reqPeer "10.0.0.1") =
      some ("10.0.0.1", [.stdout "Detected client IP: 10.0.0.1\n"]) :=
  ⟨((peer_address_fallback (reqPeer "8.8.8.8:51234") (by decide) (by decide)).1
      "8.8.8.8" "51234" (by rfl)).2.2,
   ((peer_address_fallback (reqPeer "[::1]:8080") (by decide) (by decide)).1
      "::1" "8080" (by rfl)).2.2,
   (peer_address_fallback (reqPeer "10.0.0.1") (by decide) (by decide)).2.2 (by decide)⟩

/-! ## The geolocation client -/

theorem getLocationFromIP_ok_iff {F J : Type} (W : World F J) (ip : String)
    (location : IPLocation F) :
    (getLocationFromIP W ip).2 = .ok location ↔
      ∃ resp body, W.httpGet ("http://ip-api.com/json/" ++ ip) = .ok resp ∧
        resp.Body = .ok body ∧ W.unmarshalLocation body = .ok location ∧
        location.Status = "success" := by
  constructor
  · intro h
    unfold getLocationFromIP at h
    dsimp only at h
    cases hg : W.httpGet ("http://ip-api.com/json/" ++ ip) with
    | error err => rw [hg] at h; cases h
    | ok resp =>
      rw [hg] at h
      dsimp only at h
      cases hb : resp.Body with
      | error err => rw [hb] at h; cases h
      | ok body =>
        rw [hb] at h
        dsimp only at h
        cases hu : W.unmarshalLocation body with
        | error err => rw [hu] at h; cases h
        | ok loc =>
          rw [hu] at h
          dsimp only at h
          by_cases hs : loc.Status = "success"
          · rw [if_neg (not_not.mpr hs)] at h
            cases h
            exact ⟨resp, body, rfl, hb, hu, hs⟩
          · rw [if_pos hs] at h
            cases h
  · rintro ⟨resp, body, hg, hb, hu, hs⟩
    simp [getLocationFromIP, hg, hb, hu, hs]

theorem getLocationFromIP_status_error {F J : Type} (W : World F J) (ip : String)
    (resp : HttpResponse) (body : String) (location : IPLocation F)
    (hg : W.httpGet ("http://ip-api.com/json/" ++ ip) = .ok resp)
    (hb : resp.Body = .ok body) (hu : W.unmarshalLocation body = .ok location)
    (hs : location.Status ≠ "success") :
    (getLocationFromIP W ip).2 =
      .error ("IP location API returned non-success status: " ++ location.Status) := by
  simp [getLocationFromIP, hg, hb, hu, hs]

/-- C7: `getLocationFromIP` returns a Location exactly when the GET succeeds,
the body is read, `json.Unmarshal` accepts the body and the parsed status is
`"success"`, and the Location is then the parsed one (status, lat, lon, city and
country as decoded from the upstream body); otherwise it returns the error of
the first failing step, in the order network, read, parse, upstream status. -/
theorem getLocationFromIP_spec {F J : Type} (W : World F J) (ip : String) :
    (∀ location, (getLocationFromIP W ip).2 = .ok location ↔
      ∃ resp body, W.httpGet ("http://ip-api.com/json/" ++ ip) = .ok resp ∧
        resp.Body = .ok body ∧ W.unmarshalLocation body = .ok location ∧
        location.Status = "success") ∧
    (∀ err, W.httpGet ("http://ip-api.com/json/" ++ ip) = .error err →
      (getLocationFromIP W ip).2 = .error ("failed to query IP location API: " ++ err)) ∧
    (∀ resp err, W.httpGet ("http://ip-api.com/json/" ++ ip) = .ok resp →
      resp.Body = .error err →
      (getLocationFromIP W ip).2 =
        .error ("failed to read IP location API response: " ++ err)) ∧
    (∀ resp body err, W.httpGet ("http://ip-api.com/json/" ++ ip) = .ok resp →
      resp.Body = .ok body → W.unmarshalLocation body = .error err →
      (getLocationFromIP W ip).2 =
        .error ("failed to parse IP location API response: " ++ err)) ∧
    (∀ resp body location, W.httpGet ("http://ip-api.com/json/" ++ ip) = .ok resp →
      resp.Body = .ok body → W.unmarshalLocation body = .ok location →
      location.Status ≠ "success" →
      (getLocationFromIP W ip).2 =
        .error ("IP location API returned non-success status: " ++ location.Status)) := by
  refine ⟨getLocationFromIP_ok_iff W ip, ?_, ?_, ?_, getLocationFromIP_status_error W ip⟩
  · intro err hg
    simp [getLocationFromIP, hg]
  · intro resp err hg hb
    simp [getLocationFromIP, hg, hb]
  · intro resp body err hg hb hu
    simp [getLocationFromIP, hg, hb, hu]

/-- C7 in the sample world: the successful body yields its Location, and the
body `{"status":"fail"}` the upstream-status error. -/
theorem getLocationFromIP_spec_witness :
    (getLocationFromIP (sampleWorld (okBody sampleGeoBody) (okBody sampleWeatherBody))
      "8.8.8.8").2 = .ok ⟨"success", .lat40_7, .lonNeg74, "NYC", "US"⟩ ∧
    (getLocationFromIP (sampleWorld (okBody sampleGeoFailBody) (okBody sampleWeatherBody))
      "8.8.8.8").2 = .error "IP location API returned non-success status: fail" :=
  ⟨((getLocationFromIP_spec (sampleWorld (okBody sampleGeoBody) (okBody sampleWeatherBody))
      "8.8.8.8").1 ⟨"success", .lat40_7, .lonNeg74, "NYC", "US"⟩).2
      ⟨⟨.ok sampleGeoBody⟩, sampleGeoBody, by rfl, by rfl, by rfl, by rfl⟩,
   (getLocationFromIP_spec (sampleWorld (okBody sampleGeoFailBody) (okBody sampleWeatherBody))
      "8.8.8.8").2.2.2.2 ⟨.ok sampleGeoFailBody⟩ sampleGeoFailBody
      ⟨"fail", .zero, .zero, "", ""⟩ (by rfl) (by rfl) (by rfl) (by decide)⟩

/-! ## The request handler -/

/-- C8: after a successful geolocation the handler calls `getWeatherData` with
the latitude and longitude of the returned Location and the configured key: its
upstream requests are the geolocation URL and then the weather URL built from
exactly those three values, as the `apikey`, `lat` and `lon` query parameters,
and its response is the one that call determines. -/
theorem weather_queried_with_location {F J : Type} (W : World F J) (config : Config)
    (r : Request) (ip : String) (out : List Effect) (location : IPLocation F)
    (hr : resolveIP r = some (ip, out))
    (hl : (getLocationFromIP W ip).2 = .ok location) :
    (∃ w, handleGetWeather W config r =
      some (out ++ [.httpGet ("http://ip-api.com/json/" ++ ip),
                    .httpGet (weatherURL W location.Lat location.Lon config.MeteoBlueAPIKey)],
            w) ∧
      w = match (getWeatherData W location.Lat location.Lon config.MeteoBlueAPIKey).2 with
          | .error err =>
            httpError ResponseWriter.fresh ("Error getting weather data: " ++ err) 500
          | .ok weatherData =>
            encode W ((ResponseWriter.fresh.Set "Content-Type" "application/json").WriteHeader
              200) weatherData) ∧
    (getWeatherData W location.Lat location.Lon config.MeteoBlueAPIKey).1 =
      [.httpGet (weatherURL W location.Lat location.Lon config.MeteoBlueAPIKey)] ∧
    weatherURL W location.Lat location.Lon config.MeteoBlueAPIKey =
      "https://my.meteoblue.com/packages/current?apikey=" ++ config.MeteoBlueAPIKey ++
        "&lat=" ++ W.formatFloat location.Lat ++ "&lon=" ++ W.formatFloat location.Lon ++
        "&format=json" := by
  refine ⟨?_, getWeatherData_effects W _ _ _, rfl⟩
  rw [handleGetWeather_eq W config r ip out hr]
  cases h2 : (getWeatherData W location.Lat location.Lon config.MeteoBlueAPIKey).2 with
  | error err =>
    rw [respond_weather_error W config _ ip err location hl h2]
    exact ⟨_, rfl, rfl⟩
  | ok wd =>
    rw [respond_success W config _ ip location wd hl h2]
    exact ⟨_, rfl, rfl⟩

/-- C8 in the sample world: for the geolocation body with `lat` 40.7 and `lon`
-74.0 the weather request carries `lat=40.700000&lon=-74.000000` and the key. -/
theorem weather_queried_with_location_witness :
    ∃ w, handleGetWeather (sampleWorld (okBody sampleGeoBody) (okBody sampleWeatherBody))
      sampleConfig reqParam =
      some ([.stdout "Using IP from request parameter: 8.8.8.8\n",
             .httpGet "http://ip-api.com/json/8.8.8.8",
             .httpGet ("https://my.meteoblue.com/packages/current?apikey=KEY" ++
               "&lat=40.700000&lon=-74.000000&format=json")], w) := by
  obtain ⟨w, hw, _⟩ := (weather_queried_with_location
    (sampleWorld (okBody sampleGeoBody) (okBody sampleWeatherBody)) sampleConfig reqParam
    "8.8.8.8" [.stdout "Using IP from request parameter: 8.8.8.8\n"]
    ⟨"success", .lat40_7, .lonNeg74, "NYC", "US"⟩ (by decide) (by rfl)).1
  exact ⟨w, hw.trans (by rfl)⟩

/-- C2: when the geolocation body parses to a status other than `"success"`,
`getLocationFromIP` yields the upstream-status error and no Location, the
handler answers 500, and its only upstream request is the geolocation one: no
weather URL is ever requested.  On every IP, a Location returned by
`getLocationFromIP` has the status `"success"`. -/
theorem non_success_status_stops {F J : Type} (W : World F J) (config : Config)
    (r : Request) (ip : String) (out : List Effect) (resp : HttpResponse) (body : String)
    (location : IPLocation F)
    (hr : resolveIP r = some (ip, out))
    (hg : W.httpGet ("http://ip-api.com/json/" ++ ip) = .ok resp)
    (hb : resp.Body = .ok body)
    (hu : W.unmarshalLocation body = .ok location)
    (hs : location.Status ≠ "success") :
    (getLocationFromIP W ip).2 =
      .error ("IP location API returned non-success status: " ++ location.Status) ∧
    (∃ effs w, handleGetWeather W config r = some (effs, w) ∧
      effs = out ++ [.httpGet ("http://ip-api.com/json/" ++ ip)] ∧
      w.status = some 500 ∧
      w.body = "Error getting location: IP location API returned non-success status: " ++
        location.Status ++ "\n" ∧
      ∀ (lat lon : F) (apiKey : String), Effect.httpGet (weatherURL W lat lon apiKey) ∉ effs) ∧
    (∀ (ip2 : String) (loc2 : IPLocation F),
      (getLocationFromIP W ip2).2 = .ok loc2 → loc2.Status = "success") := by
  have he := getLocationFromIP_status_error W ip resp body location hg hb hu hs
  refine ⟨he, ?_, ?_⟩
  · refine ⟨_, _, handleGetWeather_eq W config r ip out hr, ?_, ?_, ?_, ?_⟩
    · rw [respond_location_error W config _ ip _ he]
    · rw [respond_location_error W config _ ip _ he, httpError_fresh]
    · rw [respond_location_error W config _ ip _ he, httpError_fresh]
      apply String.ext
      simp
    · intro lat lon apiKey hmem
      rw [respond_location_error W config _ ip _ he] at hmem
      rcases List.mem_append.mp hmem with h1 | h1
      · rcases resolveIP_out hr with ho | ho <;> (rw [ho] at h1; simp at h1)
      · simp only [List.mem_singleton, Effect.httpGet.injEq] at h1
        exact geoURL_ne_weatherURL W ip lat lon apiKey h1.symm
  · intro ip2 loc2 h
    obtain ⟨_, _, _, _, _, hok⟩ := (getLocationFromIP_ok_iff W ip2 loc2).1 h
    exact hok

/-- C2 in the sample world: on the geolocation body `{"status":"fail"}` the
handler answers 500 after the one geolocation request. -/
theorem non_success_status_stops_witness :
    ∃ effs w, handleGetWeather
        (sampleWorld (okBody sampleGeoFailBody) (okBody sampleWeatherBody))
        sampleConfig reqParam = some (effs, w) ∧
      effs = [.stdout "Using IP from request parameter: 8.8.8.8\n"] ++
        [.httpGet ("http://ip-api.com/json/" ++ "8.8.8.8")] ∧
      w.status = some 500 ∧
      Effect.httpGet sampleWeatherURL ∉ effs := by
  obtain ⟨effs, w, h1, h2, h3, _, h5⟩ := (non_success_status_stops
    (sampleWorld (okBody sampleGeoFailBody) (okBody sampleWeatherBody)) sampleConfig reqParam
    "8.8.8.8" [.stdout "Using IP from request parameter: 8.8.8.8\n"]
    ⟨.ok sampleGeoFailBody⟩ sampleGeoFailBody ⟨"fail", .zero, .zero, "", ""⟩
    (by decide) (by rfl) (by rfl) (by rfl) (by decide)).2.1
  exact ⟨effs, w, h1, h2, h3, h5 .lat40_7 .lonNeg74 "KEY"⟩

/-- C3: when `getLocationFromIP` or `getWeatherData` returns an error, the
handler answers 500 with the `text/plain` header of `http.Error` and a
non-empty body made of the stage text, the error message and the line end that
`http.Error` appends; each upstream is requested at most once (the geolocation
one alone, or the geolocation one then the weather one), and nothing of the
success output is written: the status is not 200 and the content type is not
`application/json`. -/
theorem upstream_error_gives_500 {F J : Type} (W : World F J) (config : Config)
    (r : Request) (ip : String) (out : List Effect)
    (hr : resolveIP r = some (ip, out)) :
    (∀ err, (getLocationFromIP W ip).2 = .error err →
      handleGetWeather W config r =
        some (out ++ [.httpGet ("http://ip-api.com/json/" ++ ip)],
          ⟨[("Content-Type", "text/plain; charset=utf-8"),
            ("X-Content-Type-Options", "nosniff")],
           some 500, "Error getting location: " ++ err ++ "\n"⟩) ∧
      "Error getting location: " ++ err ++ "\n" ≠ "") ∧
    (∀ location err, (getLocationFromIP W ip).2 = .ok location →
      (getWeatherData W location.Lat location.Lon config.MeteoBlueAPIKey).2 = .error err →
      handleGetWeather W config r =
        some (out ++ [.httpGet ("http://ip-api.com/json/" ++ ip),
                      .httpGet (weatherURL W location.Lat location.Lon
                        config.MeteoBlueAPIKey)],
          ⟨[("Content-Type", "text/plain; charset=utf-8"),
            ("X-Content-Type-Options", "nosniff")],
           some 500, "Error getting weather data: " ++ err ++ "\n"⟩) ∧
      "Error getting weather data: " ++ err ++ "\n" ≠ "") := by
  constructor
  · intro err he
    constructor
    · exact handler_location_error W config r ip out err hr he
    · intro h
      have hd := congrArg String.length h
      simp only [String.length_append] at hd
      have h1 : ("\n" : String).length = 1 := by decide
      have h0 : ("" : String).length = 0 := by decide
      omega
  · intro location err hl he
    constructor
    · exact handler_weather_error W config r ip out location err hr hl he
    · intro h
      have hd := congrArg String.length h
      simp only [String.length_append] at hd
      have h1 : ("\n" : String).length = 1 := by decide
      have h0 : ("" : String).length = 0 := by decide
      omega

/-- C3 in the sample world: a refused geolocation connection, and a refused
weather connection after a successful geolocation. -/
theorem upstream_error_gives_500_witness :
    handleGetWeather (sampleWorld (.error "dial tcp: connection refused")
        (okBody sampleWeatherBody)) sampleConfig reqParam =
      some ([.stdout "Using IP from request parameter: 8.8.8.8\n"] ++
              [.httpGet ("http://ip-api.com/json/" ++ "8.8.8.8")],
        ⟨[("Content-Type", "text/plain; charset=utf-8"), ("X-Content-Type-Options", "nosniff")],
         some 500,
         "Error getting location: " ++
           "failed to query IP location API: dial tcp: connection refused" ++ "\n"⟩) ∧
    handleGetWeather (sampleWorld (okBody sampleGeoBody)
        (.error "dial tcp: connection refused")) sampleConfig reqParam =
      some ([.stdout "Using IP from request parameter: 8.8.8.8\n"] ++
              [.httpGet ("http://ip-api.com/json/" ++ "8.8.8.8"),
               .httpGet sampleWeatherURL],
        ⟨[("Content-Type", "text/plain; charset=utf-8"), ("X-Content-Type-Options", "nosniff")],
         some 500,
         "Error getting weather data: " ++
           "failed to query weather API: dial tcp: connection refused" ++ "\n"⟩) :=
  ⟨((upstream_error_gives_500 (sampleWorld (.error "dial tcp: connection refused")
        (okBody sampleWeatherBody)) sampleConfig reqParam "8.8.8.8"
      [.stdout "Using IP from request parameter: 8.8.8.8\n"] (by decide)).1
      "failed to query IP location API: dial tcp: connection refused" (by rfl)).1,
   ((upstream_error_gives_500 (sampleWorld (okBody sampleGeoBody)
        (.error "dial tcp: connection refused")) sampleConfig reqParam "8.8.8.8"
      [.stdout "Using IP from request parameter: 8.8.8.8\n"] (by decide)).2
      ⟨"success", .lat40_7, .lonNeg74, "NYC", "US"⟩
      "failed to query weather API: dial tcp: connection refused" (by rfl) (by rfl)).1⟩

/-! ## The round trip of the JSON codec -/

theorem hexValue_hexDigit (n : Nat) (h : n < 16) : hexValue (hexDigit n) = some n := by
  interval_cases n <;> decide

theorem unquote_u00 (fuel : Nat) (c : Char) (tail acc : List Char) (h : c.toNat < 256) :
    unquote (fuel + 1)
      ('\\' :: 'u' :: '0' :: '0' :: hexDigit (c.toNat / 16) :: hexDigit (c.toNat % 16) :: tail)
      acc = unquote fuel tail (c :: acc) := by
  have hv1 := hexValue_hexDigit (c.toNat / 16) (by omega)
  have hv2 := hexValue_hexDigit (c.toNat % 16) (by omega)
  have h0 : hexValue '0' = some 0 := by decide
  have hval : ((0 * 16 + 0) * 16 + c.toNat / 16) * 16 + c.toNat % 16 = c.toNat := by omega
  have hq : ('\\' : Char) ≠ '"' := by decide
  have hns : ¬ (0xD800 ≤ c.toNat ∧ c.toNat < 0xE000) := by omega
  rw [unquote]
  simp only [hq, if_false, if_true, getu4, and_self, h0, hv1, hv2, hval, hns, List.drop_succ_cons,
    List.drop_zero, Char.ofNat_toNat]

theorem unquote_u202 (fuel : Nat) (c : Char) (tail acc : List Char)
    (h : c.toNat = 0x2028 ∨ c.toNat = 0x2029) :
    unquote (fuel + 1)
      ('\\' :: 'u' :: '2' :: '0' :: '2' :: hexDigit (c.toNat % 16) :: tail)
      acc = unquote fuel tail (c :: acc) := by
  have hv2 := hexValue_hexDigit (c.toNat % 16) (by omega)
  have h0 : hexValue '0' = some 0 := by decide
  have h2 : hexValue '2' = some 2 := by decide
  have hval : ((2 * 16 + 0) * 16 + 2) * 16 + c.toNat % 16 = c.toNat := by omega
  have hq : ('\\' : Char) ≠ '"' := by decide
  have hns : ¬ (0xD800 ≤ c.toNat ∧ c.toNat < 0xE000) := by omega
  rw [unquote]
  simp only [hq, if_false, if_true, getu4, and_self, h0, h2, hv2, hval, hns, List.drop_succ_cons,
    List.drop_zero, Char.ofNat_toNat]

theorem unquote_escapeChar (fuel : Nat) (c : Char) (tail acc : List Char) :
    unquote (fuel + 1) (escapeChar c ++ tail) acc = unquote fuel tail (c :: acc) := by
  unfold escapeChar
  split_ifs with h1 h2 h3 h4 h5 h6 h7 h8 h9
  · subst h1; rfl
  · subst h2; rfl
  · have : c = Char.ofNat 8 := by rw [← h3]; simp
    subst this; rfl
  · have : c = Char.ofNat 12 := by rw [← h4]; simp
    subst this; rfl
  · subst h5; rfl
  · subst h6; rfl
  · subst h7; rfl
  · apply unquote_u00
    rcases h8 with h | h | h | h
    · omega
    · subst h; decide
    · subst h; decide
    · subst h; decide
  · exact unquote_u202 fuel c tail acc h9
  · have hlt : ¬ c.toNat < 0x20 := fun h => h8 (Or.inl h)
    simp only [List.singleton_append, unquote, h1, h2, hlt, if_false]

theorem unquote_escapeChars (cs : List Char) :
    ∀ (fuel : Nat) (rest acc : List Char), cs.length < fuel →
      unquote fuel (escapeChars cs ++ '"' :: rest) acc =
        some (String.mk (acc.reverse ++ cs), rest) := by
  induction cs with
  | nil =>
    intro fuel rest acc hf
    obtain ⟨f, rfl⟩ : ∃ f, fuel = f + 1 := ⟨fuel - 1, by simp at hf; omega⟩
    simp [escapeChars, unquote]
  | cons c cs ih =>
    intro fuel rest acc hf
    obtain ⟨f, rfl⟩ : ∃ f, fuel = f + 1 := ⟨fuel - 1, by simp at hf; omega⟩
    simp only [escapeChars, List.append_assoc]
    rw [unquote_escapeChar, ih f rest (c :: acc) (by simp at hf; omega)]
    simp

theorem escapeChar_length_pos (c : Char) : 0 < (escapeChar c).length := by
  unfold escapeChar
  split_ifs <;> simp

theorem length_le_escapeChars (cs : List Char) : cs.length ≤ (escapeChars cs).length := by
  induction cs with
  | nil => simp [escapeChars]
  | cons c cs ih =>
    have := escapeChar_length_pos c
    simp only [escapeChars, List.length_cons, List.length_append]
    omega

/-- A string the encoder wrote reads back as itself. -/
theorem unquote_appendString (s : String) (rest : List Char) :
    ∃ body, appendString s ++ rest = '"' :: body ∧
      unquote (body.length + 1) body [] = some (s, rest) := by
  refine ⟨escapeChars s.data ++ '"' :: rest, by simp [appendString], ?_⟩
  rw [unquote_escapeChars s.data _ rest [] ?_]
  · simp
  · have := length_le_escapeChars s.data
    simp only [List.length_append, List.length_cons]
    omega

theorem terminated_cons {c : Char} (r : List Char) (h : isNumberChar c = false) :
    Terminated (c :: r) := by
  intro a ha
  simp only [List.head?_cons, Option.some.injEq] at ha
  subst ha
  exact h

theorem terminated_appendElems {N : Type} (fmt : N → String) (xs : List (JSONValue N))
    (rest : List Char) : Terminated (appendElems fmt xs ++ rest) := by
  cases xs with
  | nil => exact terminated_cons _ (by decide)
  | cons x xs => exact terminated_cons _ (by decide)

theorem terminated_appendMembers {N : Type} (fmt : N → String)
    (ms : List (String × JSONValue N)) (rest : List Char) :
    Terminated (appendMembers fmt ms ++ rest) := by
  cases ms with
  | nil => exact terminated_cons _ (by decide)
  | cons m ms =>
    obtain ⟨k, x⟩ := m
    exact terminated_cons _ (by decide)

theorem appendElems_length_pos {N : Type} (fmt : N → String) (xs : List (JSONValue N)) :
    0 < (appendElems fmt xs).length := by
  cases xs <;> simp [appendElems]

theorem appendMembers_length_pos {N : Type} (fmt : N → String)
    (ms : List (String × JSONValue N)) : 0 < (appendMembers fmt ms).length := by
  cases ms with
  | nil => simp [appendMembers]
  | cons m ms =>
    obtain ⟨k, x⟩ := m
    simp [appendMembers]

theorem takeWhile_terminated (rest : List Char) (h : Terminated rest) :
    rest.takeWhile isNumberChar = [] ∧ rest.dropWhile isNumberChar = rest := by
  cases rest with
  | nil => simp
  | cons a r =>
    have := h a rfl
    simp [this]

theorem number_head (lit : List Char) (h : isNumberLiteral lit = true) :
    (∃ c r, lit = c :: r ∧ (c = '-' ∨ isDigit c = true)) ∧
      ∀ a ∈ lit, isNumberChar a = true := by
  unfold isNumberLiteral at h
  rw [Bool.and_eq_true] at h
  refine ⟨?_, by simpa using h.1⟩
  cases lit with
  | nil => simp at h
  | cons c r =>
    refine ⟨c, r, rfl, ?_⟩
    by_cases hc : c = '-'
    · exact Or.inl hc
    · right
      have h2 := h.2
      simp only [hc, if_false] at h2
      by_cases h0 : c = '0'
      · subst h0; decide
      · simp only [h0, if_false] at h2
        by_cases hd : isDigit c = true
        · exact hd
        · simp [hd] at h2

theorem head_facts (c : Char) (h : c = '-' ∨ isDigit c = true) :
    isJSONSpace c = false ∧ c ≠ '{' ∧ c ≠ '[' ∧ c ≠ '"' ∧ c ≠ 't' ∧ c ≠ 'f' ∧ c ≠ 'n' := by
  rcases h with h | h
  · subst h; decide
  · refine ⟨?_, ?_, ?_, ?_, ?_, ?_, ?_⟩
    · simp only [isDigit, Bool.and_eq_true, decide_eq_true_eq] at h
      by_contra hs
      simp only [isJSONSpace, Bool.not_eq_false, Bool.or_eq_true, decide_eq_true_eq] at hs
      rcases hs with ((hs | hs) | hs) | hs <;> (subst hs; revert h; decide)
    all_goals (intro hc; subst hc; revert h; decide)

theorem parseValue_number (fuel depth : Nat) (lit : String) (rest : List Char)
    (h : isNumberLiteral lit.data = true) (hr : Terminated rest) :
    parseValue (fuel + 1) depth (lit.data ++ rest) = .ok (.number lit, rest) := by
  obtain ⟨⟨c, r, hlit, hc⟩, hall⟩ := number_head lit.data h
  obtain ⟨hsp, h1, h2, h3, h4, h5, h6⟩ := head_facts c hc
  have htw : (lit.data ++ rest).takeWhile isNumberChar = lit.data := by
    rw [List.takeWhile_append_of_pos hall, (takeWhile_terminated rest hr).1, List.append_nil]
  have hdw : (lit.data ++ rest).dropWhile isNumberChar = rest := by
    rw [List.dropWhile_append_of_pos hall, (takeWhile_terminated rest hr).2]
  have hskip : skipSpace (lit.data ++ rest) = c :: (r ++ rest) := by
    rw [hlit]
    simp [skipSpace, hsp]
  have hcr : c :: (r ++ rest) = lit.data ++ rest := by rw [hlit]; rfl
  rw [parseValue, hskip]
  simp only [h1, h2, h3, h4, h5, h6, if_false]
  have hc2 : (c = '-' ∨ isDigit c = true) := hc
  rw [if_pos hc2, hcr, htw, hdw, if_pos h]

theorem appendString_head (s : String) :
    ∃ r, appendString s = '"' :: r := ⟨_, rfl⟩

/-- The text of a value starts with a character that is neither white space
nor a closing bracket. -/
theorem appendValue_head {F : Type} (fl : Float64 F) (v : JSONValue F) :
    ∃ c r, appendValue fl.format v = c :: r ∧ isJSONSpace c = false ∧ c ≠ ']' ∧ c ≠ '}' := by
  cases v with
  | null => exact ⟨_, _, rfl, by decide, by decide, by decide⟩
  | bool b => cases b <;> exact ⟨_, _, rfl, by decide, by decide, by decide⟩
  | number n =>
    obtain ⟨⟨c, r, hlit, hc⟩, _⟩ := number_head (fl.format n).data (fl.format_number n)
    refine ⟨c, r, by simp [appendValue, hlit], (head_facts c hc).1, ?_, ?_⟩
    · rcases hc with h | h
      · subst h; decide
      · intro hc2; subst hc2; revert h; decide
    · rcases hc with h | h
      · subst h; decide
      · intro hc2; subst hc2; revert h; decide
  | string s => exact ⟨_, _, rfl, by decide, by decide, by decide⟩
  | array xs =>
    cases xs with
    | nil => exact ⟨_, _, rfl, by decide, by decide, by decide⟩
    | cons x xs => exact ⟨'[', _, by rw [appendValue], by decide, by decide, by decide⟩
  | object ms =>
    cases ms with
    | nil => exact ⟨_, _, rfl, by decide, by decide, by decide⟩
    | cons m ms =>
      obtain ⟨k, x⟩ := m
      exact ⟨'{', _, by rw [appendValue], by decide, by decide, by decide⟩

theorem parseElements_step (fuel depth : Nat) (s : List Char) (acc : List (JSONValue String))
    (v : JSONValue String) (r : List Char) (hv : parseValue fuel depth s = .ok (v, r)) :
    parseElements (fuel + 1) depth s acc =
      match skipSpace r with
      | [] => .error unexpectedEnd
      | c :: r2 =>
        if c = ',' then parseElements fuel depth r2 (acc ++ [v])
        else if c = ']' then .ok (.array (acc ++ [v]), r2)
        else .error invalidCharacter := by
  rw [parseElements, hv]

theorem parseMembers_step (fuel depth : Nat) (k : String) (t : List Char)
    (acc : List (String × JSONValue String)) (v : JSONValue String) (r3 : List Char)
    (hv : parseValue fuel depth t = .ok (v, r3)) :
    parseMembers (fuel + 1) depth (appendString k ++ ':' :: t) acc =
      match skipSpace r3 with
      | [] => .error unexpectedEnd
      | c3 :: r4 =>
        if c3 = ',' then parseMembers fuel depth r4 (acc ++ [(k, v)])
        else if c3 = '}' then .ok (.object (acc ++ [(k, v)]), r4)
        else .error invalidCharacter := by
  obtain ⟨body, hbody, hunq⟩ := unquote_appendString k (':' :: t)
  have hskip : skipSpace (appendString k ++ ':' :: t) = '"' :: body := by
    rw [hbody]
    simp [skipSpace, isJSONSpace]
  have hskip2 : skipSpace (':' :: t) = ':' :: t := by
    simp [skipSpace, isJSONSpace]
  rw [parseMembers, hskip]
  simp only [if_true, hunq, hskip2, hv]

theorem skipSpace_cons (c : Char) (r : List Char) (h : isJSONSpace c = false) :
    skipSpace (c :: r) = c :: r := by
  simp [skipSpace, h]

mutual

theorem parseValue_appendValue {F : Type} (fl : Float64 F) :
    ∀ (v : JSONValue F) (fuel depth : Nat) (rest : List Char),
      (appendValue fl.format v).length < fuel →
      depth + height v ≤ maxNestingDepth →
      Terminated rest →
      parseValue fuel depth (appendValue fl.format v ++ rest) = .ok (render fl.format v, rest)
  | .null, fuel, depth, rest, hf, _, _ => by
    obtain ⟨f, rfl⟩ : ∃ f, fuel = f + 1 := ⟨fuel - 1, by omega⟩
    simp [appendValue, render, parseValue, skipSpace, isJSONSpace]
  | .bool b, fuel, depth, rest, hf, _, _ => by
    obtain ⟨f, rfl⟩ : ∃ f, fuel = f + 1 := ⟨fuel - 1, by omega⟩
    cases b <;> simp [appendValue, render, parseValue, skipSpace, isJSONSpace]
  | .number n, fuel, depth, rest, hf, _, hr => by
    obtain ⟨f, rfl⟩ : ∃ f, fuel = f + 1 := ⟨fuel - 1, by omega⟩
    simp only [appendValue, render]
    exact parseValue_number f depth (fl.format n) rest (fl.format_number n) hr
  | .string s, fuel, depth, rest, hf, _, _ => by
    obtain ⟨f, rfl⟩ : ∃ f, fuel = f + 1 := ⟨fuel - 1, by omega⟩
    obtain ⟨body, hbody, hunq⟩ := unquote_appendString s rest
    simp only [appendValue, render]
    rw [hbody, parseValue, skipSpace_cons _ _ (by decide)]
    simp [hunq]
  | .array [], fuel, depth, rest, hf, hd, _ => by
    obtain ⟨f, rfl⟩ : ∃ f, fuel = f + 1 := ⟨fuel - 1, by omega⟩
    have hdep : ¬ maxNestingDepth < depth + 1 := by
      simp only [height, heightElems] at hd
      omega
    simp [appendValue, render, renderElems, parseValue, skipSpace, isJSONSpace, hdep]
  | .array (x :: xs), fuel, depth, rest, hf, hd, _ => by
    obtain ⟨f, rfl⟩ : ∃ f, fuel = f + 1 := ⟨fuel - 1, by omega⟩
    simp only [height, heightElems] at hd
    have hdep : ¬ maxNestingDepth < depth + 1 := by omega
    simp only [appendValue, List.length_cons, List.length_append] at hf
    have hpos := appendElems_length_pos fl.format xs
    obtain ⟨f2, rfl⟩ : ∃ f2, f = f2 + 1 := ⟨f - 1, by omega⟩
    have hx := parseValue_appendValue fl x f2 (depth + 1) (appendElems fl.format xs ++ rest)
      (by omega) (by omega) (terminated_appendElems _ _ _)
    have hel := parseElements_appendElems fl xs f2 (depth + 1)
      (appendValue fl.format x ++ (appendElems fl.format xs ++ rest)) (render fl.format x) []
      rest hx (by omega) (by omega)
    obtain ⟨c, r, hcr, hsp, hne1, hne2⟩ := appendValue_head fl x
    simp only [appendValue, render, renderElems, List.cons_append, List.append_assoc]
    rw [parseValue, skipSpace_cons _ _ (by decide)]
    simp only [if_neg (show ¬ ('[' : Char) = '{' by decide), if_true, hdep, if_false]
    rw [hcr, List.cons_append, skipSpace_cons _ _ hsp]
    simp only [hne1, if_false]
    rw [← List.cons_append, ← hcr, hel]
    simp
  | .object [], fuel, depth, rest, hf, hd, _ => by
    obtain ⟨f, rfl⟩ : ∃ f, fuel = f + 1 := ⟨fuel - 1, by omega⟩
    have hdep : ¬ maxNestingDepth < depth + 1 := by
      simp only [height, heightMembers] at hd
      omega
    simp [appendValue, render, renderMembers, parseValue, skipSpace, isJSONSpace, hdep]
  | .object ((k, x) :: ms), fuel, depth, rest, hf, hd, _ => by
    obtain ⟨f, rfl⟩ : ∃ f, fuel = f + 1 := ⟨fuel - 1, by omega⟩
    simp only [height, heightMembers] at hd
    have hdep : ¬ maxNestingDepth < depth + 1 := by omega
    simp only [appendValue, List.length_cons, List.length_append] at hf
    have hpos := appendMembers_length_pos fl.format ms
    obtain ⟨f2, rfl⟩ : ∃ f2, f = f2 + 1 := ⟨f - 1, by omega⟩
    have hx := parseValue_appendValue fl x f2 (depth + 1) (appendMembers fl.format ms ++ rest)
      (by omega) (by omega) (terminated_appendMembers _ _ _)
    have hel := parseMembers_appendMembers fl ms f2 (depth + 1) k
      (appendValue fl.format x ++ (appendMembers fl.format ms ++ rest)) (render fl.format x) []
      rest hx (by omega) (by omega)
    simp only [appendValue, render, renderMembers, List.cons_append, List.append_assoc]
    rw [parseValue, skipSpace_cons _ _ (by decide)]
    simp only [if_true, hdep, if_false]
    have hq : appendString k ++ (':' :: (appendValue fl.format x ++
        (appendMembers fl.format ms ++ rest))) =
        '"' :: (escapeChars k.data ++ '"' :: ':' :: (appendValue fl.format x ++
          (appendMembers fl.format ms ++ rest))) := by
      simp [appendString]
    rw [hq, skipSpace_cons _ _ (by decide)]
    simp only [if_neg (show ¬ ('"' : Char) = '}' by decide)]
    rw [← hq, hel]
    simp

theorem parseElements_appendElems {F : Type} (fl : Float64 F) :
    ∀ (xs : List (JSONValue F)) (fuel depth : Nat) (s : List Char) (v : JSONValue String)
      (acc : List (JSONValue String)) (rest : List Char),
      parseValue fuel depth s = .ok (v, appendElems fl.format xs ++ rest) →
      (appendElems fl.format xs).length ≤ fuel →
      depth + heightElems xs ≤ maxNestingDepth →
      parseElements (fuel + 1) depth s acc =
        .ok (.array (acc ++ v :: renderElems fl.format xs), rest)
  | [], fuel, depth, s, v, acc, rest, hv, _, _ => by
    rw [parseElements_step fuel depth s acc v _ hv]
    simp [appendElems, renderElems, skipSpace, isJSONSpace]
  | y :: ys, fuel, depth, s, v, acc, rest, hv, hf, hd => by
    simp only [heightElems] at hd
    simp only [appendElems, List.length_cons, List.length_append] at hf
    have hpos := appendElems_length_pos fl.format ys
    obtain ⟨f, rfl⟩ : ∃ f, fuel = f + 1 := ⟨fuel - 1, by omega⟩
    have hy := parseValue_appendValue fl y f depth (appendElems fl.format ys ++ rest)
      (by omega) (by omega) (terminated_appendElems _ _ _)
    have hrec := parseElements_appendElems fl ys f depth
      (appendValue fl.format y ++ (appendElems fl.format ys ++ rest)) (render fl.format y)
      (acc ++ [v]) rest hy (by omega) (by omega)
    rw [parseElements_step (f + 1) depth s acc v _ hv]
    simp only [appendElems, List.cons_append, List.append_assoc]
    rw [skipSpace_cons _ _ (by decide)]
    simp only [if_true]
    rw [hrec]
    simp [renderElems]

theorem parseMembers_appendMembers {F : Type} (fl : Float64 F) :
    ∀ (ms : List (String × JSONValue F)) (fuel depth : Nat) (k : String) (t : List Char)
      (v : JSONValue String) (acc : List (String × JSONValue String)) (rest : List Char),
      parseValue fuel depth t = .ok (v, appendMembers fl.format ms ++ rest) →
      (appendMembers fl.format ms).length ≤ fuel →
      depth + heightMembers ms ≤ maxNestingDepth →
      parseMembers (fuel + 1) depth (appendString k ++ ':' :: t) acc =
        .ok (.object (acc ++ (k, v) :: renderMembers fl.format ms), rest)
  | [], fuel, depth, k, t, v, acc, rest, hv, _, _ => by
    rw [parseMembers_step fuel depth k t acc v _ hv]
    simp [appendMembers, renderMembers, skipSpace, isJSONSpace]
  | (k2, y) :: ms, fuel, depth, k, t, v, acc, rest, hv, hf, hd => by
    simp only [heightMembers] at hd
    simp only [appendMembers, List.length_cons, List.length_append] at hf
    have hpos := appendMembers_length_pos fl.format ms
    obtain ⟨f, rfl⟩ : ∃ f, fuel = f + 1 := ⟨fuel - 1, by omega⟩
    have hy := parseValue_appendValue fl y f depth (appendMembers fl.format ms ++ rest)
      (by omega) (by omega) (terminated_appendMembers _ _ _)
    have hrec := parseMembers_appendMembers fl ms f depth k2
      (appendValue fl.format y ++ (appendMembers fl.format ms ++ rest)) (render fl.format y)
      (acc ++ [(k, v)]) rest hy (by omega) (by omega)
    rw [parseMembers_step (f + 1) depth k t acc v _ hv]
    simp only [appendMembers, List.cons_append, List.append_assoc]
    rw [skipSpace_cons _ _ (by decide)]
    simp only [if_true]
    rw [hrec]
    simp [renderMembers]

end

theorem char_eq_of_toNat_eq {a b : Char} (h : a.toNat = b.toNat) : a = b := by
  have h1 : Char.ofNat a.toNat = Char.ofNat b.toNat := by rw [h]
  simpa using h1

theorem keyLess_irrefl (a : List Char) : keyLess a a = false := by
  induction a with
  | nil => rfl
  | cons c cs ih => simp [keyLess, ih]

theorem keyLess_asymm : ∀ (a b : List Char), keyLess a b = true → keyLess b a = false
  | _, [], h => by simp [keyLess] at h
  | [], _ :: _, _ => by simp [keyLess]
  | c :: cs, d :: ds, h => by
    simp only [keyLess, Bool.or_eq_true, decide_eq_true_eq, Bool.and_eq_true] at h
    simp only [keyLess, Bool.or_eq_false_iff, decide_eq_false_iff_not, Bool.and_eq_false_imp,
      decide_eq_true_eq]
    rcases h with h | ⟨h1, h2⟩
    · exact ⟨by omega, fun h3 => by omega⟩
    · exact ⟨by omega, fun _ => keyLess_asymm cs ds h2⟩

theorem keyLess_trans : ∀ (a b c : List Char),
    keyLess a b = true → keyLess b c = true → keyLess a c = true
  | _, [], _, h, _ => by simp [keyLess] at h
  | _, _ :: _, [], _, h => by simp [keyLess] at h
  | [], _ :: _, _ :: _, _, _ => by simp [keyLess]
  | x :: xs, y :: ys, z :: zs, h1, h2 => by
    simp only [keyLess, Bool.or_eq_true, decide_eq_true_eq, Bool.and_eq_true] at h1 h2 ⊢
    rcases h1 with h1 | ⟨h1, h1'⟩
    · rcases h2 with h2 | ⟨h2, _⟩
      · exact Or.inl (by omega)
      · exact Or.inl (by omega)
    · rcases h2 with h2 | ⟨h2, h2'⟩
      · exact Or.inl (by omega)
      · exact Or.inr ⟨by omega, keyLess_trans xs ys zs h1' h2'⟩

theorem keyLess_total : ∀ (a b : List Char),
    a ≠ b → keyLess a b = true ∨ keyLess b a = true
  | [], [], h => absurd rfl h
  | [], _ :: _, _ => by simp [keyLess]
  | _ :: _, [], _ => by simp [keyLess]
  | x :: xs, y :: ys, h => by
    simp only [keyLess, Bool.or_eq_true, decide_eq_true_eq, Bool.and_eq_true]
    rcases Nat.lt_trichotomy x.toNat y.toNat with h1 | h1 | h1
    · exact Or.inl (Or.inl h1)
    · have hxy : x = y := char_eq_of_toNat_eq h1
      subst hxy
      have hne : xs ≠ ys := fun e => h (by rw [e])
      rcases keyLess_total xs ys hne with h2 | h2
      · exact Or.inl (Or.inr ⟨rfl, h2⟩)
      · exact Or.inr (Or.inr ⟨rfl, h2⟩)
    · exact Or.inr (Or.inl h1)

theorem keysIncreasing_append_left {α : Type} :
    ∀ (a b : List (String × α)), keysIncreasing (a ++ b) → keysIncreasing a
  | [], _, _ => trivial
  | (k, v) :: a, b, h => by
    simp only [List.cons_append, keysIncreasing] at h ⊢
    exact ⟨fun m hm => h.1 m (List.mem_append_left b hm), keysIncreasing_append_left a b h.2⟩

/-- Assigning a key above all the keys of the map puts it last. -/
theorem insertMember_last {α : Type} (k : String) (v : α) :
    ∀ (acc : List (String × α)), keysIncreasing (acc ++ [(k, v)]) →
      insertMember k v acc = acc ++ [(k, v)]
  | [], _ => rfl
  | (k2, v2) :: acc, h => by
    simp only [List.cons_append, keysIncreasing] at h
    have hlt : keyLess k2.data k.data = true := h.1 (k, v) (by simp)
    have hne : k ≠ k2 := by
      intro e
      subst e
      rw [keyLess_irrefl] at hlt
      cases hlt
    have hnlt : keyLess k.data k2.data = false := keyLess_asymm _ _ hlt
    simp only [insertMember, hne, if_false, hnlt, List.cons_append]
    rw [insertMember_last k v acc h.2]
    simp

mutual

theorem convertValue_render {F : Type} (fl : Float64 F) :
    ∀ (v : JSONValue F), isGoValue v →
      convertValue fl.parse (render fl.format v) = .ok v
  | .null, _ => by simp [render, convertValue]
  | .bool b, _ => by simp [render, convertValue]
  | .number n, _ => by simp [render, convertValue, fl.parse_format]
  | .string s, _ => by simp [render, convertValue]
  | .array xs, h => by
    simp only [isGoValue] at h
    simp [render, convertValue, convertElems_render fl xs h]
  | .object ms, h => by
    simp only [isGoValue] at h
    have := convertMembers_render fl ms [] (by simpa using h.1) h.2
    simp [render, convertValue, this]

theorem convertElems_render {F : Type} (fl : Float64 F) :
    ∀ (xs : List (JSONValue F)), isGoElems xs →
      convertElems fl.parse (renderElems fl.format xs) = .ok xs
  | [], _ => by simp [renderElems, convertElems]
  | x :: xs, h => by
    simp only [isGoElems] at h
    simp [renderElems, convertElems, convertValue_render fl x h.1, convertElems_render fl xs h.2]

theorem convertMembers_render {F : Type} (fl : Float64 F) :
    ∀ (ms acc : List (String × JSONValue F)), keysIncreasing (acc ++ ms) → isGoMembers ms →
      convertMembers fl.parse (renderMembers fl.format ms) acc = .ok (acc ++ ms)
  | [], acc, _, _ => by simp [renderMembers, convertMembers]
  | (k, x) :: ms, acc, hk, h => by
    simp only [isGoMembers] at h
    have hk1 : keysIncreasing (acc ++ [(k, x)]) := by
      apply keysIncreasing_append_left (acc ++ [(k, x)]) ms
      simpa using hk
    have hrec := convertMembers_render fl ms (acc ++ [(k, x)]) (by simpa using hk) h.2
    simp only [renderMembers, convertMembers, convertValue_render fl x h.1,
      insertMember_last k x acc hk1, hrec]
    simp

end

theorem mem_insertMember {α : Type} (k : String) (v : α) :
    ∀ (acc : List (String × α)) (m : String × α),
      m ∈ insertMember k v acc → m = (k, v) ∨ m ∈ acc
  | [], m, h => by
    simp only [insertMember, List.mem_singleton] at h
    exact Or.inl h
  | (k2, v2) :: acc, m, h => by
    unfold insertMember at h
    split_ifs at h with h1 h2
    · rcases List.mem_cons.mp h with h | h
      · exact Or.inl h
      · exact Or.inr (List.mem_cons_of_mem _ h)
    · rcases List.mem_cons.mp h with h | h
      · exact Or.inl h
      · exact Or.inr h
    · rcases List.mem_cons.mp h with h | h
      · exact Or.inr (by rw [h]; exact List.mem_cons_self _ _)
      · rcases mem_insertMember k v acc m h with h | h
        · exact Or.inl h
        · exact Or.inr (List.mem_cons_of_mem _ h)

/-- An assignment keeps the keys of a map increasing. -/
theorem keysIncreasing_insertMember {α : Type} (k : String) (v : α) :
    ∀ (acc : List (String × α)), keysIncreasing acc → keysIncreasing (insertMember k v acc)
  | [], _ => by simp [insertMember, keysIncreasing]
  | (k2, v2) :: acc, h => by
    simp only [keysIncreasing] at h
    unfold insertMember
    split_ifs with h1 h2
    · subst h1
      exact ⟨h.1, h.2⟩
    · refine ⟨?_, h.1, h.2⟩
      intro m hm
      rcases List.mem_cons.mp hm with hm | hm
      · rw [hm]; exact h2
      · exact keyLess_trans _ _ _ h2 (h.1 m hm)
    · have hne : k.data ≠ k2.data := fun e => h1 (String.ext e)
      have hlt : keyLess k2.data k.data = true := by
        rcases keyLess_total _ _ hne with h3 | h3
        · exact absurd h3 h2
        · exact h3
      refine ⟨?_, keysIncreasing_insertMember k v acc h.2⟩
      intro m hm
      rcases mem_insertMember k v acc m hm with hm | hm
      · rw [hm]; exact hlt
      · exact h.1 m hm

theorem isGoMembers_insertMember {N : Type} (k : String) (v : JSONValue N) (hv : isGoValue v) :
    ∀ (acc : List (String × JSONValue N)), isGoMembers acc → isGoMembers (insertMember k v acc)
  | [], _ => by simp [insertMember, isGoMembers, hv]
  | (k2, v2) :: acc, h => by
    simp only [isGoMembers] at h
    unfold insertMember
    split_ifs with h1 h2
    · exact ⟨hv, h.2⟩
    · exact ⟨hv, h.1, h.2⟩
    · exact ⟨h.1, isGoMembers_insertMember k v hv acc h.2⟩

theorem heightMembers_insertMember {N : Type} (k : String) (v : JSONValue N) :
    ∀ (acc : List (String × JSONValue N)),
      heightMembers (insertMember k v acc) ≤ max (height v) (heightMembers acc)
  | [] => by simp [insertMember, heightMembers]
  | (k2, v2) :: acc => by
    have ih := heightMembers_insertMember k v acc
    unfold insertMember
    split_ifs with h1 h2
    · simp only [heightMembers]; omega
    · simp only [heightMembers]; omega
    · simp only [heightMembers]; omega

mutual

/-- What `valueInterface` returns holds Go maps only. -/
theorem convertValue_isGoValue {F : Type} (parse : String → Option F) :
    ∀ (t : JSONValue String) (v : JSONValue F), convertValue parse t = .ok v → isGoValue v
  | .null, v, h => by simp only [convertValue, Except.ok.injEq] at h; subst h; trivial
  | .bool b, v, h => by simp only [convertValue, Except.ok.injEq] at h; subst h; trivial
  | .number lit, v, h => by
    simp only [convertValue] at h
    split at h
    · cases h
    · simp only [Except.ok.injEq] at h; subst h; trivial
  | .string s, v, h => by simp only [convertValue, Except.ok.injEq] at h; subst h; trivial
  | .array xs, v, h => by
    simp only [convertValue] at h
    split at h
    · cases h
    · rename_i ys hys
      simp only [Except.ok.injEq] at h; subst h
      exact convertElems_isGoElems parse xs ys hys
  | .object ms, v, h => by
    simp only [convertValue] at h
    split at h
    · cases h
    · rename_i m hm
      simp only [Except.ok.injEq] at h; subst h
      exact convertMembers_isGoMembers parse ms [] m trivial trivial hm

theorem convertElems_isGoElems {F : Type} (parse : String → Option F) :
    ∀ (xs : List (JSONValue String)) (ys : List (JSONValue F)),
      convertElems parse xs = .ok ys → isGoElems ys
  | [], ys, h => by simp only [convertElems, Except.ok.injEq] at h; subst h; trivial
  | x :: xs, ys, h => by
    simp only [convertElems] at h
    split at h
    · cases h
    · rename_i y hy
      split at h
      · cases h
      · rename_i ys2 hys2
        simp only [Except.ok.injEq] at h; subst h
        exact ⟨convertValue_isGoValue parse x y hy, convertElems_isGoElems parse xs ys2 hys2⟩

theorem convertMembers_isGoMembers {F : Type} (parse : String → Option F) :
    ∀ (ms : List (String × JSONValue String)) (acc m : List (String × JSONValue F)),
      keysIncreasing acc → isGoMembers acc → convertMembers parse ms acc = .ok m →
      keysIncreasing m ∧ isGoMembers m
  | [], acc, m, hk, hg, h => by
    simp only [convertMembers, Except.ok.injEq] at h; subst h
    exact ⟨hk, hg⟩
  | (k, x) :: ms, acc, m, hk, hg, h => by
    simp only [convertMembers] at h
    split at h
    · cases h
    · rename_i y hy
      exact convertMembers_isGoMembers parse ms (insertMember k y acc) m
        (keysIncreasing_insertMember k y acc hk)
        (isGoMembers_insertMember k y (convertValue_isGoValue parse x y hy) acc hg) h

end

mutual

/-- Decoding does not deepen a value. -/
theorem convertValue_height {F : Type} (parse : String → Option F) :
    ∀ (t : JSONValue String) (v : JSONValue F), convertValue parse t = .ok v →
      height v ≤ height t
  | .null, v, h => by simp only [convertValue, Except.ok.injEq] at h; subst h; simp [height]
  | .bool b, v, h => by simp only [convertValue, Except.ok.injEq] at h; subst h; simp [height]
  | .number lit, v, h => by
    simp only [convertValue] at h
    split at h
    · cases h
    · simp only [Except.ok.injEq] at h; subst h; simp [height]
  | .string s, v, h => by simp only [convertValue, Except.ok.injEq] at h; subst h; simp [height]
  | .array xs, v, h => by
    simp only [convertValue] at h
    split at h
    · cases h
    · rename_i ys hys
      simp only [Except.ok.injEq] at h; subst h
      have := convertElems_height parse xs ys hys
      simp only [height]; omega
  | .object ms, v, h => by
    simp only [convertValue] at h
    split at h
    · cases h
    · rename_i m hm
      simp only [Except.ok.injEq] at h; subst h
      have := convertMembers_height parse ms [] m hm
      simp only [height, heightMembers] at this ⊢; omega

theorem convertElems_height {F : Type} (parse : String → Option F) :
    ∀ (xs : List (JSONValue String)) (ys : List (JSONValue F)),
      convertElems parse xs = .ok ys → heightElems ys ≤ heightElems xs
  | [], ys, h => by simp only [convertElems, Except.ok.injEq] at h; subst h; simp [heightElems]
  | x :: xs, ys, h => by
    simp only [convertElems] at h
    split at h
    · cases h
    · rename_i y hy
      split at h
      · cases h
      · rename_i ys2 hys2
        simp only [Except.ok.injEq] at h; subst h
        have h1 := convertValue_height parse x y hy
        have h2 := convertElems_height parse xs ys2 hys2
        simp only [heightElems]; omega

theorem convertMembers_height {F : Type} (parse : String → Option F) :
    ∀ (ms : List (String × JSONValue String)) (acc m : List (String × JSONValue F)),
      convertMembers parse ms acc = .ok m →
      heightMembers m ≤ max (heightMembers acc) (heightMembers ms)
  | [], acc, m, h => by
    simp only [convertMembers, Except.ok.injEq] at h; subst h
    simp [heightMembers]
  | (k, x) :: ms, acc, m, h => by
    simp only [convertMembers] at h
    split at h
    · cases h
    · rename_i y hy
      have h1 := convertValue_height parse x y hy
      have h2 := convertMembers_height parse ms (insertMember k y acc) m h
      have h3 := heightMembers_insertMember k y acc
      simp only [heightMembers]; omega

end

theorem heightElems_append {N : Type} (v : JSONValue N) :
    ∀ (acc : List (JSONValue N)), heightElems (acc ++ [v]) = max (heightElems acc) (height v)
  | [] => by simp [heightElems]
  | a :: acc => by
    have ih := heightElems_append v acc
    show heightElems (a :: (acc ++ [v])) = _
    rw [heightElems, heightElems, ih]
    omega

theorem heightMembers_append {N : Type} (k : String) (v : JSONValue N) :
    ∀ (acc : List (String × JSONValue N)),
      heightMembers (acc ++ [(k, v)]) = max (heightMembers acc) (height v)
  | [] => by simp [heightMembers]
  | (k2, a) :: acc => by
    have ih := heightMembers_append k v acc
    show heightMembers ((k2, a) :: (acc ++ [(k, v)])) = _
    rw [heightMembers, heightMembers, ih]
    omega

theorem ok_leaf_height {t u : JSONValue String} {r r2 : List Char} {depth : Nat}
    (h : (Except.ok (u, r2) : Except String (JSONValue String × List Char)) = .ok (t, r))
    (hu : depth + height u ≤ maxNestingDepth) : depth + height t ≤ maxNestingDepth := by
  simp only [Except.ok.injEq, Prod.mk.injEq] at h
  obtain ⟨rfl, _⟩ := h
  exact hu

/-- The scanner returns no tree nested deeper than `maxNestingDepth`. -/
theorem parse_height (fuel : Nat) :
    (∀ depth s t r, parseValue fuel depth s = .ok (t, r) → depth ≤ maxNestingDepth →
      depth + height t ≤ maxNestingDepth) ∧
    (∀ depth s acc t r, parseElements fuel depth s acc = .ok (t, r) →
      depth + heightElems acc ≤ maxNestingDepth → depth + height t ≤ maxNestingDepth + 1) ∧
    (∀ depth s acc t r, parseMembers fuel depth s acc = .ok (t, r) →
      depth + heightMembers acc ≤ maxNestingDepth →
      depth + height t ≤ maxNestingDepth + 1) := by
  induction fuel with
  | zero =>
    refine ⟨?_, ?_, ?_⟩
    · intro depth s t r h; simp [parseValue] at h
    · intro depth s acc t r h; simp [parseElements] at h
    · intro depth s acc t r h; simp [parseMembers] at h
  | succ fuel ih =>
    obtain ⟨ihv, ihe, ihm⟩ := ih
    refine ⟨?_, ?_, ?_⟩
    · intro depth s t r h hd
      have h0 : depth + 0 ≤ maxNestingDepth := hd
      rw [parseValue] at h
      split at h
      · cases h
      · split at h
        · split at h
          · cases h
          · split at h
            · cases h
            · split at h
              · exact ok_leaf_height h (by simp only [height, heightMembers]; omega)
              · have := ihm (depth + 1) _ [] t r h (by simp only [heightMembers]; omega)
                omega
        · split at h
          · split at h
            · cases h
            · split at h
              · cases h
              · split at h
                · exact ok_leaf_height h (by simp only [height, heightElems]; omega)
                · have := ihe (depth + 1) _ [] t r h (by simp only [heightElems]; omega)
                  omega
          · split at h
            · split at h
              · cases h
              · exact ok_leaf_height h (by simp only [height]; omega)
            · split at h
              · split at h
                · exact ok_leaf_height h (by simp only [height]; omega)
                · cases h
              · split at h
                · split at h
                  · exact ok_leaf_height h (by simp only [height]; omega)
                  · cases h
                · split at h
                  · split at h
                    · exact ok_leaf_height h (by simp only [height]; omega)
                    · cases h
                  · split at h
                    · split at h
                      · exact ok_leaf_height h (by simp only [height]; omega)
                      · cases h
                    · cases h
    · intro depth s acc t r h hd
      rw [parseElements] at h
      split at h
      · cases h
      · rename_i v r1 hv
        have hdep : depth ≤ maxNestingDepth := by omega
        have hvh := ihv depth s v r1 hv hdep
        split at h
        · cases h
        · split at h
          · exact ihe depth _ (acc ++ [v]) t r h (by rw [heightElems_append]; omega)
          · split at h
            · simp only [Except.ok.injEq, Prod.mk.injEq] at h
              obtain ⟨rfl, _⟩ := h
              simp only [height, heightElems_append]; omega
            · cases h
    · intro depth s acc t r h hd
      rw [parseMembers] at h
      split at h
      · cases h
      · split at h
        · split at h
          · cases h
          · split at h
            · cases h
            · split at h
              · split at h
                · cases h
                · rename_i v r3 hv
                  have hdep : depth ≤ maxNestingDepth := by omega
                  have hvh := ihv depth _ v r3 hv hdep
                  split at h
                  · cases h
                  · split at h
                    · exact ihm depth _ _ t r h (by rw [heightMembers_append]; omega)
                    · split at h
                      · simp only [Except.ok.injEq, Prod.mk.injEq] at h
                        obtain ⟨rfl, _⟩ := h
                        simp only [height, heightMembers_append]; omega
                      · cases h
              · cases h
        · cases h

theorem isDecoded_set {N : Type} (w : WeatherResponse (JSONValue N)) (fld : Field)
    (v : JSONValue N) (hw : isDecoded w) (hv : isDecodedField v) : isDecoded (w.set fld v) := by
  obtain ⟨h1, h2, h3⟩ := hw
  cases fld
  · exact ⟨hv, h2, h3⟩
  · exact ⟨h1, hv, h3⟩
  · exact ⟨h1, h2, hv⟩

theorem decodeStruct_isDecoded {F : Type} (parse : String → Option F) :
    ∀ (ms : List (String × JSONValue String)) (w wd : WeatherResponse (JSONValue F)),
      heightMembers ms + 1 ≤ maxNestingDepth → isDecoded w →
      decodeStruct parse ms w = .ok wd → isDecoded wd
  | [], w, wd, _, hw, h => by
    simp only [decodeStruct, Except.ok.injEq] at h
    subst h
    exact hw
  | (k, x) :: ms, w, wd, hh, hw, h => by
    simp only [heightMembers] at hh
    rw [decodeStruct] at h
    split at h
    · exact decodeStruct_isDecoded parse ms w wd (by omega) hw h
    · rename_i fld hfld
      split at h
      · cases h
      · rename_i y hy
        have hy1 := convertValue_isGoValue parse x y hy
        have hy2 := convertValue_height parse x y hy
        exact decodeStruct_isDecoded parse ms (w.set fld y) wd (by omega)
          (isDecoded_set w fld y hw ⟨hy1, by omega⟩) h

theorem scanJSON_height (data : List Char) (t : JSONValue String)
    (h : scanJSON data = .ok t) : height t ≤ maxNestingDepth := by
  unfold scanJSON at h
  split at h
  · cases h
  · rename_i t0 rest hp
    split at h
    · simp only [Except.ok.injEq] at h
      subst h
      have := (parse_height _).1 0 data t0 rest hp (Nat.zero_le _)
      omega
    · cases h

/-- What `json.Unmarshal` stores in a `WeatherResponse`. -/
theorem jsonUnmarshalWeather_isDecoded {F : Type} (parse : String → Option F) (body : String)
    (wd : WeatherResponse (JSONValue F)) (h : jsonUnmarshalWeather parse body = .ok wd) :
    isDecoded wd := by
  have hz : isDecoded (⟨.null, .null, .null⟩ : WeatherResponse (JSONValue F)) := by
    have h0 : isDecodedField (JSONValue.null : JSONValue F) :=
      ⟨trivial, by simp only [height]; decide⟩
    exact ⟨h0, h0, h0⟩
  unfold jsonUnmarshalWeather at h
  split at h
  · cases h
  · rename_i t ht
    have hh := scanJSON_height _ t ht
    split at h
    · rename_i ms
      simp only [height] at hh
      exact decodeStruct_isDecoded parse ms _ wd hh hz h
    · simp only [Except.ok.injEq] at h
      subst h
      exact hz
    · cases h
    · cases h
    · cases h
    · cases h

theorem jsonMarshalWeather_data {F : Type} (fmt : F → String)
    (w : WeatherResponse (JSONValue F)) :
    (jsonMarshalWeather fmt w).data =
      appendValue fmt (.object [("metadata", w.Metadata), ("units", w.Units),
        ("data_current", w.DataCurrent)]) := by
  have h1 : appendString "metadata" = "\"metadata\"".data := by decide
  have h2 : appendString "units" = "\"units\"".data := by decide
  have h3 : appendString "data_current" = "\"data_current\"".data := by decide
  simp only [jsonMarshalWeather, appendValue, appendMembers, h1, h2, h3]
  simp

/-- The round trip of `encoding/json` on a `WeatherResponse`: what `Marshal`
writes for a decoded value, followed by a line end, `Unmarshal` decodes to
that value. -/
theorem jsonUnmarshalWeather_marshal {F : Type} (fl : Float64 F)
    (wd : WeatherResponse (JSONValue F)) (hwd : isDecoded wd) :
    jsonUnmarshalWeather fl.parse (jsonMarshalWeather fl.format wd ++ "\n") = .ok wd := by
  obtain ⟨⟨g1, k1⟩, ⟨g2, k2⟩, ⟨g3, k3⟩⟩ := hwd
  have hdata : (jsonMarshalWeather fl.format wd ++ "\n").data =
      appendValue fl.format (.object [("metadata", wd.Metadata), ("units", wd.Units),
        ("data_current", wd.DataCurrent)]) ++ ['\n'] := by
    rw [String.data_append, jsonMarshalWeather_data]
  have hparse := parseValue_appendValue fl
    (.object [("metadata", wd.Metadata), ("units", wd.Units), ("data_current", wd.DataCurrent)])
    (2 * (jsonMarshalWeather fl.format wd ++ "\n").data.length + 2) 0 ['\n']
    (by rw [hdata, List.length_append]; omega)
    (by simp only [height, heightMembers]; omega)
    (terminated_cons _ (by decide))
  have hscan : scanJSON (jsonMarshalWeather fl.format wd ++ "\n").data =
      .ok (.object [("metadata", render fl.format wd.Metadata),
        ("units", render fl.format wd.Units),
        ("data_current", render fl.format wd.DataCurrent)]) := by
    unfold scanJSON
    rw [← hdata] at hparse
    rw [hparse]
    simp [skipSpace, isJSONSpace, render, renderMembers]
  have f1 : fieldOf "metadata" = some Field.metadata := by decide
  have f2 : fieldOf "units" = some Field.units := by decide
  have f3 : fieldOf "data_current" = some Field.dataCurrent := by decide
  unfold jsonUnmarshalWeather
  rw [hscan]
  simp only [decodeStruct, f1, f2, f3, convertValue_render fl _ g1, convertValue_render fl _ g2,
    convertValue_render fl _ g3, WeatherResponse.set]

/-! ## The steps of the scanner -/

theorem length_dropWhile_le_self (p : Char → Bool) (s : List Char) :
    (s.dropWhile p).length ≤ s.length :=
  (List.dropWhile_sublist p).length_le

theorem length_skipSpace_le (s : List Char) : (skipSpace s).length ≤ s.length :=
  length_dropWhile_le_self _ s

theorem length_lt_of_skipSpace {s r : List Char} {c : Char} (h : skipSpace s = c :: r) :
    r.length < s.length := by
  have := length_skipSpace_le s
  rw [h] at this
  simp only [List.length_cons] at this
  omega

/-- A string literal that is read leaves less input than it was given. -/
theorem unquote_length : ∀ (fuel : Nat) (s acc : List Char) (k : String) (r : List Char),
    unquote fuel s acc = some (k, r) → r.length < s.length
  | 0, _, _, _, _, h => by simp [unquote] at h
  | fuel + 1, [], acc, k, r, h => by simp [unquote] at h
  | fuel + 1, c :: r0, acc, k, r, h => by
    simp only [unquote] at h
    · split at h
      · simp only [Option.some.injEq, Prod.mk.injEq] at h
        rw [← h.2]
        simp
      · split at h
        · split at h
          · cases h
          · rename_i e r2
            split at h
            · split at h
              · cases h
              · split at h
                · split at h
                  · have := unquote_length fuel _ _ k r h
                    have h2 := List.length_drop 5 (e :: r2)
                    simp only [List.length_cons] at *
                    omega
                  · split at h
                    · have := unquote_length fuel _ _ k r h
                      have h2 := List.length_drop 11 (e :: r2)
                      simp only [List.length_cons] at *
                      omega
                    · have := unquote_length fuel _ _ k r h
                      have h2 := List.length_drop 5 (e :: r2)
                      simp only [List.length_cons] at *
                      omega
                · have := unquote_length fuel _ _ k r h
                  have h2 := List.length_drop 5 (e :: r2)
                  simp only [List.length_cons] at *
                  omega
            · split at h
              · cases h
              · have := unquote_length fuel _ _ k r h
                simp only [List.length_cons] at *
                omega
        · split at h
          · cases h
          · have := unquote_length fuel _ _ k r h
            simp only [List.length_cons] at *
            omega

theorem ok_rest_length {t u : JSONValue String} {r r2 : List Char} {n : Nat}
    (h : (Except.ok (u, r2) : Except String (JSONValue String × List Char)) = .ok (t, r))
    (hu : r2.length < n) : r.length < n := by
  simp only [Except.ok.injEq, Prod.mk.injEq] at h
  rw [← h.2]
  exact hu

/-- A value that is read leaves less input than it was given. -/
theorem parse_length (fuel : Nat) :
    (∀ depth s t r, parseValue fuel depth s = .ok (t, r) → r.length < s.length) ∧
    (∀ depth s acc t r, parseElements fuel depth s acc = .ok (t, r) → r.length < s.length) ∧
    (∀ depth s acc t r, parseMembers fuel depth s acc = .ok (t, r) → r.length < s.length) := by
  induction fuel with
  | zero =>
    refine ⟨?_, ?_, ?_⟩
    · intro depth s t r h; simp [parseValue] at h
    · intro depth s acc t r h; simp [parseElements] at h
    · intro depth s acc t r h; simp [parseMembers] at h
  | succ fuel ih =>
    obtain ⟨ihv, ihe, ihm⟩ := ih
    refine ⟨?_, ?_, ?_⟩
    · intro depth s t r h
      rw [parseValue] at h
      split at h
      · cases h
      · rename_i c r0 hs
        have hs1 := length_lt_of_skipSpace hs
        split at h
        · split at h
          · cases h
          · split at h
            · cases h
            · rename_i c2 r2 hs2
              have hs3 := length_lt_of_skipSpace hs2
              split at h
              · exact ok_rest_length h (by omega)
              · have := ihm (depth + 1) _ [] t r h
                simp only [List.length_cons] at this
                omega
        · split at h
          · split at h
            · cases h
            · split at h
              · cases h
              · rename_i c2 r2 hs2
                have hs3 := length_lt_of_skipSpace hs2
                split at h
                · exact ok_rest_length h (by omega)
                · have := ihe (depth + 1) _ [] t r h
                  simp only [List.length_cons] at this
                  omega
          · split at h
            · split at h
              · cases h
              · rename_i str r2 hq
                have := unquote_length _ _ _ _ _ hq
                exact ok_rest_length h (by omega)
            · split at h
              · split at h
                · exact ok_rest_length h (by simp only [List.length_cons] at hs1 ⊢; omega)
                · cases h
              · split at h
                · split at h
                  · exact ok_rest_length h (by simp only [List.length_cons] at hs1 ⊢; omega)
                  · cases h
                · split at h
                  · split at h
                    · exact ok_rest_length h (by simp only [List.length_cons] at hs1 ⊢; omega)
                    · cases h
                  · split at h
                    · rename_i hnum
                      split at h
                      · have hc : isNumberChar c = true := by
                          rcases hnum with hnum | hnum
                          · subst hnum; decide
                          · simp [isNumberChar, hnum]
                        have hle := length_dropWhile_le_self isNumberChar r0
                        exact ok_rest_length h (by
                          rw [List.dropWhile_cons_of_pos hc]
                          omega)
                      · cases h
                    · cases h
    · intro depth s acc t r h
      rw [parseElements] at h
      split at h
      · cases h
      · rename_i v r1 hv
        have hv1 := ihv depth s v r1 hv
        split at h
        · cases h
        · rename_i c r2 hs
          have hs1 := length_lt_of_skipSpace hs
          split at h
          · have := ihe depth _ _ t r h
            omega
          · split at h
            · exact ok_rest_length h (by omega)
            · cases h
    · intro depth s acc t r h
      rw [parseMembers] at h
      split at h
      · cases h
      · rename_i c r0 hs
        have hs1 := length_lt_of_skipSpace hs
        split at h
        · split at h
          · cases h
          · rename_i key r1 hq
            have hq1 := unquote_length _ _ _ _ _ hq
            split at h
            · cases h
            · rename_i c1 r2 hs2
              have hs3 := length_lt_of_skipSpace hs2
              split at h
              · split at h
                · cases h
                · rename_i v r3 hv
                  have hv1 := ihv depth _ v r3 hv
                  split at h
                  · cases h
                  · rename_i c3 r4 hs4
                    have hs5 := length_lt_of_skipSpace hs4
                    split at h
                    · have := ihm depth _ _ t r h
                      omega
                    · split at h
                      · exact ok_rest_length h (by omega)
                      · cases h
              · cases h
        · cases h

theorem error_ne_outOfSteps {e : String} {α : Type} (he : e ≠ outOfSteps)
    (h : (Except.error e : Except String α) = .error outOfSteps) : False :=
  he (Except.error.inj h)

/-- The scan never runs out of steps when it has two for every character. -/
theorem parse_steps (fuel : Nat) :
    (∀ depth s, 2 * s.length + 1 ≤ fuel → parseValue fuel depth s ≠ .error outOfSteps) ∧
    (∀ depth s acc, 2 * s.length + 2 ≤ fuel →
      parseElements fuel depth s acc ≠ .error outOfSteps) ∧
    (∀ depth s acc, 2 * s.length + 2 ≤ fuel →
      parseMembers fuel depth s acc ≠ .error outOfSteps) := by
  have e1 : unexpectedEnd ≠ outOfSteps := by decide
  have e2 : invalidCharacter ≠ outOfSteps := by decide
  have e3 : "exceeded max depth" ≠ outOfSteps := by decide
  induction fuel with
  | zero =>
    refine ⟨?_, ?_, ?_⟩
    · intro depth s hf; omega
    · intro depth s acc hf; omega
    · intro depth s acc hf; omega
  | succ fuel ih =>
    obtain ⟨ihv, ihe, ihm⟩ := ih
    refine ⟨?_, ?_, ?_⟩
    · intro depth s hf h
      rw [parseValue] at h
      split at h
      · exact error_ne_outOfSteps e1 h
      · rename_i c r0 hs
        have hs1 := length_lt_of_skipSpace hs
        split at h
        · split at h
          · exact error_ne_outOfSteps e3 h
          · split at h
            · exact error_ne_outOfSteps e1 h
            · rename_i c2 r2 hs2
              have hs3 := length_lt_of_skipSpace hs2
              split at h
              · cases h
              · exact ihm (depth + 1) _ [] (by simp only [List.length_cons]; omega) h
        · split at h
          · split at h
            · exact error_ne_outOfSteps e3 h
            · split at h
              · exact error_ne_outOfSteps e1 h
              · rename_i c2 r2 hs2
                have hs3 := length_lt_of_skipSpace hs2
                split at h
                · cases h
                · exact ihe (depth + 1) _ [] (by simp only [List.length_cons]; omega) h
          · split at h
            · split at h
              · exact error_ne_outOfSteps e2 h
              · cases h
            · split at h
              · split at h
                · cases h
                · exact error_ne_outOfSteps e2 h
              · split at h
                · split at h
                  · cases h
                  · exact error_ne_outOfSteps e2 h
                · split at h
                  · split at h
                    · cases h
                    · exact error_ne_outOfSteps e2 h
                  · split at h
                    · split at h
                      · cases h
                      · exact error_ne_outOfSteps e2 h
                    · exact error_ne_outOfSteps e2 h
    · intro depth s acc hf h
      rw [parseElements] at h
      split at h
      · rename_i e hv
        have he := Except.error.inj h
        subst he
        exact ihv depth s (by omega) hv
      · rename_i v r1 hv
        have hv1 := (parse_length fuel).1 depth s v r1 hv
        split at h
        · exact error_ne_outOfSteps e1 h
        · rename_i c r2 hs
          have hs1 := length_lt_of_skipSpace hs
          split at h
          · exact ihe depth _ _ (by omega) h
          · split at h
            · cases h
            · exact error_ne_outOfSteps e2 h
    · intro depth s acc hf h
      rw [parseMembers] at h
      split at h
      · exact error_ne_outOfSteps e1 h
      · rename_i c r0 hs
        have hs1 := length_lt_of_skipSpace hs
        split at h
        · split at h
          · exact error_ne_outOfSteps e2 h
          · rename_i key r1 hq
            have hq1 := unquote_length _ _ _ _ _ hq
            split at h
            · exact error_ne_outOfSteps e1 h
            · rename_i c1 r2 hs2
              have hs3 := length_lt_of_skipSpace hs2
              split at h
              · split at h
                · rename_i e hv
                  have he := Except.error.inj h
                  subst he
                  exact ihv depth _ (by omega) hv
                · rename_i v r3 hv
                  have hv1 := (parse_length fuel).1 depth _ v r3 hv
                  split at h
                  · exact error_ne_outOfSteps e1 h
                  · rename_i c3 r4 hs4
                    have hs5 := length_lt_of_skipSpace hs4
                    split at h
                    · exact ihm depth _ _ (by omega) h
                    · split at h
                      · cases h
                      · exact error_ne_outOfSteps e2 h
              · exact error_ne_outOfSteps e2 h
        · exact error_ne_outOfSteps e2 h

/-- The scanner of `scanJSON` has steps enough on every input: its error is
never the one of a scan out of steps. -/
theorem scanJSON_steps (data : List Char) : scanJSON data ≠ .error outOfSteps := by
  intro h
  unfold scanJSON at h
  split at h
  · rename_i e hp
    have he := Except.error.inj h
    subst he
    exact (parse_steps _).1 0 data (by omega) hp
  · split at h
    · cases h
    · exact error_ne_outOfSteps (by decide) h

/-! ## The success path of the handler -/

/-- C1, as stated, fails: the weather body
`{"metadata":{"x":1e400},"units":{},"data_current":{"temp":20}}` is a JSON
object, the geolocation has succeeded, and the handler answers 500, not 200,
because `json.Unmarshal` refuses the number `1e400`, which no `float64`
holds. -/
theorem json_object_refused_counterexample :
    isJSONObject sampleOverflowBody = true ∧
    (getLocationFromIP (sampleGoWorld (okBody sampleGeoBody) (okBody sampleOverflowBody))
      "8.8.8.8").2 = .ok ⟨"success", .lat40_7, .lonNeg74, "NYC", "US"⟩ ∧
    (∃ effs w, handleGetWeather (sampleGoWorld (okBody sampleGeoBody)
        (okBody sampleOverflowBody)) sampleConfig reqParam = some (effs, w) ∧
      effs = [.stdout "Using IP from request parameter: 8.8.8.8\n",
              .httpGet sampleGeoURL, .httpGet sampleWeatherURL] ∧
      w.status = some 500 ∧
      w.Get "Content-Type" = "text/plain; charset=utf-8") ∧
    ¬ ∃ effs w, handleGetWeather (sampleGoWorld (okBody sampleGeoBody)
        (okBody sampleOverflowBody)) sampleConfig reqParam = some (effs, w) ∧
      w.status = some 200 := by
  have hl : (getLocationFromIP (sampleGoWorld (okBody sampleGeoBody)
      (okBody sampleOverflowBody)) "8.8.8.8").2 =
      .ok ⟨"success", .lat40_7, .lonNeg74, "NYC", "US"⟩ := by rfl
  have hw : (getWeatherData (sampleGoWorld (okBody sampleGeoBody)
      (okBody sampleOverflowBody)) SampleNumber.lat40_7 SampleNumber.lonNeg74
      sampleConfig.MeteoBlueAPIKey).2 =
      .error ("failed to parse weather API response: " ++ numberError "1e400") := by rfl
  have hh := handler_weather_error (sampleGoWorld (okBody sampleGeoBody)
    (okBody sampleOverflowBody)) sampleConfig reqParam "8.8.8.8"
    [.stdout "Using IP from request parameter: 8.8.8.8\n"]
    ⟨"success", .lat40_7, .lonNeg74, "NYC", "US"⟩ _ (by decide) hl hw
  refine ⟨by rfl, hl, ⟨_, _, hh, by rfl, rfl, by rfl⟩, ?_⟩
  rintro ⟨effs, w, he, hs⟩
  rw [hh] at he
  simp only [Option.some.injEq, Prod.mk.injEq] at he
  rw [← he.2] at hs
  simp at hs

/-- C1, amended: when the geolocation succeeds and `json.Unmarshal` accepts the
body the weather upstream returns, the handler answers with status 200, the
single header `Content-Type: application/json`, and the text `json.Marshal`
writes for the decoded WeatherResponse followed by a line end; and that body
deserializes to the metadata, units and data_current decoded from the upstream
body.  The JSON codec is the one of `encoding/json`; of `float64` it uses that
`strconv` writes a number which `ParseFloat` reads back exactly. -/
theorem success_relays_weather {F : Type} (fl : Float64 F)
    (httpGet : String → Except String HttpResponse)
    (unmarshalLocation : String → Except String (IPLocation F)) (formatFloat : F → String)
    (config : Config) (r : Request) (ip : String) (out : List Effect)
    (location : IPLocation F) (resp : HttpResponse) (body : String)
    (weatherData : WeatherResponse (JSONValue F))
    (hr : resolveIP r = some (ip, out))
    (hl : (getLocationFromIP (goWorld fl httpGet unmarshalLocation formatFloat) ip).2 =
      .ok location)
    (hg : httpGet (weatherURL (goWorld fl httpGet unmarshalLocation formatFloat)
      location.Lat location.Lon config.MeteoBlueAPIKey) = .ok resp)
    (hb : resp.Body = .ok body)
    (hu : jsonUnmarshalWeather fl.parse body = .ok weatherData) :
    ∃ effs w, handleGetWeather (goWorld fl httpGet unmarshalLocation formatFloat) config r =
        some (effs, w) ∧
      w.status = some 200 ∧
      w.Get "Content-Type" = "application/json" ∧
      w.header = [("Content-Type", "application/json")] ∧
      w.body = jsonMarshalWeather fl.format weatherData ++ "\n" ∧
      ∃ decoded, jsonUnmarshalWeather fl.parse w.body = .ok decoded ∧
        decoded.Metadata = weatherData.Metadata ∧
        decoded.Units = weatherData.Units ∧
        decoded.DataCurrent = weatherData.DataCurrent := by
  have hw : (getWeatherData (goWorld fl httpGet unmarshalLocation formatFloat)
      location.Lat location.Lon config.MeteoBlueAPIKey).2 = .ok weatherData := by
    have hg2 : (goWorld fl httpGet unmarshalLocation formatFloat).httpGet
        (weatherURL (goWorld fl httpGet unmarshalLocation formatFloat)
          location.Lat location.Lon config.MeteoBlueAPIKey) = .ok resp := hg
    have hu2 : (goWorld fl httpGet unmarshalLocation formatFloat).unmarshalWeather body =
        .ok weatherData := hu
    simp [getWeatherData, hg2, hb, hu2]
  have hm : (goWorld fl httpGet unmarshalLocation formatFloat).marshalWeather weatherData =
      .ok (jsonMarshalWeather fl.format weatherData) := rfl
  have hrt := jsonUnmarshalWeather_marshal fl weatherData
    (jsonUnmarshalWeather_isDecoded fl.parse body weatherData hu)
  refine ⟨_, _, handleGetWeather_eq _ config r ip out hr, ?_, ?_, ?_, ?_, ?_⟩
  · rw [respond_success _ config _ ip location weatherData hl hw, encode_fresh _ _ _ hm]
  · rw [respond_success _ config _ ip location weatherData hl hw, encode_fresh _ _ _ hm]
    simp [ResponseWriter.Get]
  · rw [respond_success _ config _ ip location weatherData hl hw, encode_fresh _ _ _ hm]
  · rw [respond_success _ config _ ip location weatherData hl hw, encode_fresh _ _ _ hm]
  · rw [respond_success _ config _ ip location weatherData hl hw, encode_fresh _ _ _ hm]
    exact ⟨weatherData, hrt, rfl, rfl, rfl⟩

/-- C1, amended, in the sample world: the weather body
`{"metadata":{},"units":{},"data_current":{"temp":20}}` comes back with status
200 as that text and a line end, which decodes to the same three values. -/
theorem success_relays_weather_witness :
    ∃ effs w, handleGetWeather (sampleGoWorld (okBody sampleGeoBody)
        (okBody sampleWeatherBody)) sampleConfig reqParam = some (effs, w) ∧
      w.status = some 200 ∧
      w.Get "Content-Type" = "application/json" ∧
      w.body = sampleWeatherBody ++ "\n" ∧
      jsonUnmarshalWeather sampleFloat64.parse w.body =
        .ok ⟨.object [], .object [], .object [("temp", .number .twenty)]⟩ := by
  obtain ⟨effs, w, h1, h2, h3, _, h5, decoded, h6, h7, h8, h9⟩ := success_relays_weather
    sampleFloat64
    (fun url =>
      if url = sampleGeoURL then okBody sampleGeoBody
      else if url = sampleWeatherURL then okBody sampleWeatherBody
      else .error "dial tcp: no such host")
    (fun body =>
      if body = sampleGeoBody then .ok ⟨"success", .lat40_7, .lonNeg74, "NYC", "US"⟩
      else if body = sampleGeoFailBody then .ok ⟨"fail", .zero, .zero, "", ""⟩
      else .error "invalid character")
    (fun x =>
      match x with
      | .zero => "0.000000"
      | .twenty => "20.000000"
      | .lat40_7 => "40.700000"
      | .lonNeg74 => "-74.000000")
    sampleConfig reqParam
    "8.8.8.8" [.stdout "Using IP from request parameter: 8.8.8.8\n"]
    ⟨"success", .lat40_7, .lonNeg74, "NYC", "US"⟩ ⟨.ok sampleWeatherBody⟩ sampleWeatherBody
    ⟨.object [], .object [], .object [("temp", .number .twenty)]⟩
    (by decide) (by rfl) (by rfl) (by rfl) (by rfl)
  refine ⟨effs, w, h1, h2, h3, h5.trans (by rfl), ?_⟩
  rw [h6]
  cases decoded
  simp only at h7 h8 h9
  rw [h7, h8, h9]

/-- C9, as stated, fails: with the geolocation connection refused the handler
answers 500 and its effects are the standard-output line naming the IP and the
one upstream request; nothing is written to standard error, and no output line
carries the error. -/
theorem error_not_logged_counterexample :
    handleGetWeather (sampleWorld (.error "dial tcp: connection refused")
        (okBody sampleWeatherBody)) sampleConfig reqParam =
      some ([.stdout "Using IP from request parameter: 8.8.8.8\n",
             .httpGet "http://ip-api.com/json/8.8.8.8"],
        ⟨[("Content-Type", "text/plain; charset=utf-8"), ("X-Content-Type-Options", "nosniff")],
         some 500,
         "Error getting location: failed to query IP location API: " ++
           "dial tcp: connection refused\n"⟩) ∧
    ¬ ∃ effs w s, handleGetWeather (sampleWorld (.error "dial tcp: connection refused")
        (okBody sampleWeatherBody)) sampleConfig reqParam = some (effs, w) ∧
      Effect.stderr s ∈ effs := by
  have h : handleGetWeather (sampleWorld (.error "dial tcp: connection refused")
        (okBody sampleWeatherBody)) sampleConfig reqParam =
      some ([.stdout "Using IP from request parameter: 8.8.8.8\n",
             .httpGet "http://ip-api.com/json/8.8.8.8"],
        ⟨[("Content-Type", "text/plain; charset=utf-8"), ("X-Content-Type-Options", "nosniff")],
         some 500,
         "Error getting location: failed to query IP location API: " ++
           "dial tcp: connection refused\n"⟩) := by rfl
  refine ⟨h, ?_⟩
  rintro ⟨effs, w, s, he, hmem⟩
  rw [h] at he
  simp only [Option.some.injEq, Prod.mk.injEq] at he
  rw [← he.1] at hmem
  simp at hmem

/-- C9, amended: when the geolocation stage or the weather stage fails, the
handler answers 500 with the stage text and the error as the body, writes
nothing to standard error, and its one line on standard output is the one
naming the resolved IP. -/
theorem errors_returned_not_logged {F J : Type} (W : World F J) (config : Config)
    (r : Request) (ip : String) (out : List Effect) (msg : String)
    (hr : resolveIP r = some (ip, out))
    (hfail : (∃ err, (getLocationFromIP W ip).2 = .error err ∧
        msg = "Error getting location: " ++ err) ∨
      (∃ location err, (getLocationFromIP W ip).2 = .ok location ∧
        (getWeatherData W location.Lat location.Lon config.MeteoBlueAPIKey).2 = .error err ∧
        msg = "Error getting weather data: " ++ err)) :
    ∃ effs w, handleGetWeather W config r = some (effs, w) ∧
      w.status = some 500 ∧
      w.body = msg ++ "\n" ∧
      (∀ s, Effect.stderr s ∉ effs) ∧
      (∀ s, Effect.stdout s ∈ effs →
        s = "Using IP from request parameter: " ++ ip ++ "\n" ∨
        s = "Detected client IP: " ++ ip ++ "\n") := by
  have hout := resolveIP_out hr
  rcases hfail with ⟨err, he, hmsg⟩ | ⟨location, err, hl, he, hmsg⟩
  · have hh := handler_location_error W config r ip out err hr he
    subst hmsg
    refine ⟨_, _, hh, rfl, rfl, ?_, ?_⟩
    · intro s hmem
      rcases hout with ho | ho <;> (rw [ho] at hmem; simp at hmem)
    · intro s hmem
      rcases hout with ho | ho <;> (rw [ho] at hmem; simp at hmem)
      · exact Or.inl hmem
      · exact Or.inr hmem
  · have hh := handler_weather_error W config r ip out location err hr hl he
    subst hmsg
    refine ⟨_, _, hh, rfl, rfl, ?_, ?_⟩
    · intro s hmem
      rcases hout with ho | ho <;> (rw [ho] at hmem; simp at hmem)
    · intro s hmem
      rcases hout with ho | ho <;> (rw [ho] at hmem; simp at hmem)
      · exact Or.inl hmem
      · exact Or.inr hmem

/-- C9, amended, in the sample world with the weather connection refused. -/
theorem errors_returned_not_logged_witness :
    ∃ effs w, handleGetWeather (sampleWorld (okBody sampleGeoBody)
        (.error "dial tcp: connection refused")) sampleConfig reqParam = some (effs, w) ∧
      w.status = some 500 ∧
      w.body = "Error getting weather data: failed to query weather API: " ++
        "dial tcp: connection refused" ++ "\n" ∧
      ∀ s, Effect.stderr s ∉ effs := by
  obtain ⟨effs, w, h1, h2, h3, h4, _⟩ := errors_returned_not_logged
    (sampleWorld (okBody sampleGeoBody) (.error "dial tcp: connection refused"))
    sampleConfig reqParam "8.8.8.8" [.stdout "Using IP from request parameter: 8.8.8.8\n"]
    ("Error getting weather data: failed to query weather API: " ++
      "dial tcp: connection refused")
    (by decide)
    (Or.inr ⟨⟨"success", .lat40_7, .lonNeg74, "NYC", "US"⟩,
      "failed to query weather API: dial tcp: connection refused", by rfl, by rfl, by rfl⟩)
  exact ⟨effs, w, h1, h2, h3, h4⟩

/-! ## The process entry point -/

theorem Getenv_eq_empty (env : Env) (key : String) :
    Getenv env key = "" ↔ env key = none ∨ env key = some "" := by
  unfold Getenv
  cases h : env key with
  | none => simp
  | some v => simp

/-- C10, as stated, fails on variables that are set to the empty text: with
`METEOBLUE_API_KEY` set and empty `main` terminates without registering the
handler, and with `PORT` set and empty it listens on port 8080, not on the
value of `PORT`. -/
theorem main_empty_values_counterexample :
    (envEmptyKey "METEOBLUE_API_KEY" = some "" ∧
      main envEmptyKey serveForever =
        [.stderr "Environment variable METEOBLUE_API_KEY is not set", .exit 1]) ∧
    (envEmptyPort "PORT" = some "" ∧
      main envEmptyPort serveForever =
        [.handleFunc "/getWeather" ⟨"KEY", "8080"⟩,
         .stdout "Server started on port 8080...\n",
         .listenAndServe ":8080"]) ∧
    ¬ (∀ (env : Env) (serve : String → Option String),
        (env "METEOBLUE_API_KEY" = none →
          main env serve =
            [.stderr "Environment variable METEOBLUE_API_KEY is not set", .exit 1]) ∧
        (∀ key, env "METEOBLUE_API_KEY" = some key →
          Effect.handleFunc "/getWeather" ⟨key, (env "PORT").getD "8080"⟩ ∈ main env serve ∧
          Effect.listenAndServe (":" ++ (env "PORT").getD "8080") ∈ main env serve)) := by
  refine ⟨⟨by decide, by decide⟩, ⟨by decide, by decide⟩, ?_⟩
  intro h
  have h1 := ((h envEmptyKey serveForever).2 "" (by decide)).1
  revert h1
  decide

/-- C10, amended: when `METEOBLUE_API_KEY` is absent or empty, `main` writes
the fatal message and exits with code 1, registering nothing and not listening;
otherwise it registers the handler with that key on the single route
`/getWeather`, prints the start line and listens on the port, which is the
value of `PORT` when that is set and non-empty and `8080` when it is absent or
empty; when the listener returns, its error is fatal. -/
theorem main_startup (env : Env) (serve : String → Option String) :
    (env "METEOBLUE_API_KEY" = none ∨ env "METEOBLUE_API_KEY" = some "" →
      main env serve =
        [.stderr "Environment variable METEOBLUE_API_KEY is not set", .exit 1]) ∧
    (∀ key, env "METEOBLUE_API_KEY" = some key → key ≠ "" →
      (env "PORT" = none ∨ env "PORT" = some "" →
        main env serve =
          [.handleFunc "/getWeather" ⟨key, "8080"⟩,
           .stdout ("Server started on port " ++ "8080" ++ "...\n"),
           .listenAndServe (":" ++ "8080")] ++
          (match serve (":" ++ "8080") with
           | none => []
           | some err => [.stderr err, .exit 1])) ∧
      (∀ port, env "PORT" = some port → port ≠ "" →
        main env serve =
          [.handleFunc "/getWeather" ⟨key, port⟩,
           .stdout ("Server started on port " ++ port ++ "...\n"),
           .listenAndServe (":" ++ port)] ++
          (match serve (":" ++ port) with
           | none => []
           | some err => [.stderr err, .exit 1]))) := by
  refine ⟨?_, ?_⟩
  · intro h
    have hk := (Getenv_eq_empty env "METEOBLUE_API_KEY").2 h
    simp [main, hk, logFatal]
  · intro key hkey hne
    have hk : Getenv env "METEOBLUE_API_KEY" = key := by simp [Getenv, hkey]
    refine ⟨?_, ?_⟩
    · intro h
      have hp := (Getenv_eq_empty env "PORT").2 h
      simp only [main, hk, hne, if_false, hp, if_true, logFatal]
    · intro port hport hpne
      have hp : Getenv env "PORT" = port := by simp [Getenv, hport]
      simp only [main, hk, hne, if_false, hp, hpne, logFatal]

/-- C10, amended, at three environments: no key at all, the key alone, and
the key with `PORT=9000`. -/
theorem main_startup_witness :
    main (fun _ => none) serveForever =
      [.stderr "Environment variable METEOBLUE_API_KEY is not set", .exit 1] ∧
    main envKeyOnly serveForever =
      [.handleFunc "/getWeather" ⟨"KEY", "8080"⟩,
       .stdout ("Server started on port " ++ "8080" ++ "...\n"),
       .listenAndServe (":" ++ "8080")] ++ [] ∧
    main envKeyPort serveForever =
      [.handleFunc "/getWeather" ⟨"KEY", "9000"⟩,
       .stdout ("Server started on port " ++ "9000" ++ "...\n"),
       .listenAndServe (":" ++ "9000")] ++ [] :=
  ⟨(main_startup (fun _ => none) serveForever).1 (Or.inl rfl),
   ((main_startup envKeyOnly serveForever).2 "KEY" (by decide) (by decide)).1
     (Or.inl (by decide)),
   ((main_startup envKeyPort serveForever).2 "KEY" (by decide) (by decide)).2 "9000"
     (by decide) (by decide)⟩

end WeatherRelay
